import Mathlib

set_option maxHeartbeats 1600000
set_option maxRecDepth 4000

namespace Spec2Proof

/-!
Shallow embedding of the ai-agent-orchestrator workflow engine
(patch extraction and application, gatekeeper risk assessment and
verify/auto-fix decisions, state store, artifact store, workflow parser,
decision-tag parsing, and the orchestrator phase loop), translated from
the TypeScript sources.  JavaScript string primitives (`trim`, `split`,
regular-expression searches, `parseInt`, truthiness of strings) are
modelled explicitly below so that the embedded functions follow the
source semantics.  Error messages are kept where they are cheap to keep;
ISO timestamps are modelled by a monotone counter rendered in decimal.
-/

/-- Whitespace per JavaScript `\s` (and `String.prototype.trim`). -/
def jsWhitespaceChar (c : Char) : Bool :=
  c = ' ' || c = '\t' || c = '\n' || c = '\r' ||
  c.val = 11 || c.val = 12 || c.val = 0xa0 || c.val = 0x1680 ||
  (0x2000 ≤ c.val && c.val ≤ 0x200a) || c.val = 0x2028 || c.val = 0x2029 ||
  c.val = 0x202f || c.val = 0x205f || c.val = 0x3000 || c.val = 0xfeff

/-- List-level prefix test used by the embedded string scanners. -/
def startsWithL : List Char → List Char → Bool
  | [], _ => true
  | _ :: _, [] => false
  | p :: ps, c :: cs => p = c && startsWithL ps cs

/-- JavaScript `String.prototype.trim` (both ends, `\s` class). -/
def jsTrimL (cs : List Char) : List Char :=
  ((cs.dropWhile jsWhitespaceChar).reverse.dropWhile jsWhitespaceChar).reverse

/-- String wrapper for `jsTrimL`. -/
def jsTrim (s : String) : String := ⟨jsTrimL s.toList⟩

/-- JavaScript `String.prototype.trimEnd`. -/
def jsTrimEnd (s : String) : String :=
  ⟨(s.toList.reverse.dropWhile jsWhitespaceChar).reverse⟩

/-- ASCII lower-casing, as JavaScript `toLowerCase` on the inputs involved. -/
def jsToLower (s : String) : String := ⟨s.toList.map Char.toLower⟩

/-- All decompositions `pre ++ suf` of a character list, shortest prefix first. -/
def splitsOf : List Char → List (List Char × List Char)
  | [] => [([], [])]
  | c :: rest => ([], c :: rest) :: (splitsOf rest).map (fun p => (c :: p.1, p.2))

/-- Split a character list at every occurrence of a separator character. -/
def splitOnChar (sep : Char) : List Char → List (List Char)
  | [] => [[]]
  | c :: rest =>
    let r := splitOnChar sep rest
    if c = sep then [] :: r
    else
      match r with
      | [] => [[c]]
      | l :: ls => (c :: l) :: ls

/-- Index of the first occurrence of a substring (JS `String.prototype.indexOf`). -/
def firstIndexOfSubAux (pat : List Char) : List Char → Nat → Option Nat
  | [], i => if pat = [] then some i else none
  | c :: rest, i =>
    if startsWithL pat (c :: rest) then some i else firstIndexOfSubAux pat rest (i + 1)

/-- Index of the first occurrence of `pat` in `cs`. -/
def firstIndexOfSub (pat cs : List Char) : Option Nat := firstIndexOfSubAux pat cs 0

/-- Substring containment (JS `String.prototype.includes`). -/
def containsSub (pat cs : List Char) : Bool := (firstIndexOfSub pat cs).isSome

/-- Fuel-driven core of JS `String.prototype.replaceAll` (left-to-right,
non-overlapping); the fuel is the input length, which always suffices. -/
def replaceSubAux (pat rep : List Char) : Nat → List Char → List Char
  | _, [] => []
  | 0, cs => cs
  | fuel + 1, c :: rest =>
    if startsWithL pat (c :: rest) ∧ pat ≠ [] then
      rep ++ replaceSubAux pat rep fuel ((c :: rest).drop pat.length)
    else
      c :: replaceSubAux pat rep fuel rest

/-- JS `String.prototype.replaceAll` for a non-empty literal pattern. -/
def jsReplaceAll (s pat rep : String) : String :=
  if pat = "" then s else ⟨replaceSubAux pat.toList rep.toList s.toList.length s.toList⟩

/-- Last index at which a character occurs in a list. -/
def lastIndexOfChar (c : Char) : List Char → Option Nat
  | [] => none
  | x :: rest =>
    match lastIndexOfChar c rest with
    | some i => some (i + 1)
    | none => if x = c then some 0 else none

/-- JS `split(/\r?\n/)`: split at `\n` and strip one `\r` before each split point. -/
def stripCRButLast : List (List Char) → List (List Char)
  | [] => []
  | [l] => [l]
  | l :: rest =>
    (match l.reverse with
     | '\r' :: r => r.reverse
     | _ => l) :: stripCRButLast rest

/-- Lines of a string per the sources' `split(/\r?\n/)`. -/
def jsSplitLines (s : String) : List String :=
  (stripCRButLast (splitOnChar '\n' s.toList)).map (fun l => ⟨l⟩)

/-- String-level prefix test through the list embedding. -/
def startsWithStr (pat s : String) : Bool := startsWithL pat.toList s.toList

/-- String-level suffix test through the list embedding. -/
def endsWithStr (pat s : String) : Bool :=
  startsWithL pat.toList.reverse s.toList.reverse

/-- Decimal digit character for `n % 10`. -/
def digitCh (n : Nat) : Char :=
  match n % 10 with
  | 0 => '0' | 1 => '1' | 2 => '2' | 3 => '3' | 4 => '4'
  | 5 => '5' | 6 => '6' | 7 => '7' | 8 => '8' | _ => '9'

/-- Decimal rendering of a natural number (JS `String(n)` for integers). -/
def natDecimalAux : Nat → Nat → List Char
  | 0, _ => []
  | fuel + 1, n => if n < 10 then [digitCh n] else natDecimalAux fuel (n / 10) ++ [digitCh n]

/-- Decimal rendering of a natural number. -/
def natDecimal (n : Nat) : String := ⟨natDecimalAux (n + 1) n⟩

/-- Decimal rendering of an integer (JS `String(n)`). -/
def intDecimal (i : Int) : String :=
  if i < 0 then "-" ++ natDecimal i.natAbs else natDecimal i.natAbs

/-- JS `Number.parseInt(value, 10)`: skip whitespace, optional sign, then the
maximal digit prefix; `none` models `NaN`. -/
def jsParseInt (s : String) : Option Int :=
  let cs := s.toList.dropWhile jsWhitespaceChar
  let signed : Bool × List Char :=
    match cs with
    | '-' :: rest => (true, rest)
    | '+' :: rest => (false, rest)
    | rest => (false, rest)
  let digits := signed.2.takeWhile (fun c => c.isDigit)
  if digits = [] then none
  else
    let v : Nat := digits.foldl (fun acc c => acc * 10 + (c.toNat - 48)) 0
    some (if signed.1 then -(v : Int) else (v : Int))

/-- JS-style truthiness of an optional string (`undefined` and `""` are falsy). -/
def isFalsyOpt (o : Option String) : Bool := o.getD "" = ""

/-- Association-list lookup (first match), modelling `Map.get` / object access. -/
def lookupAssoc {α : Type} (l : List (String × α)) (k : String) : Option α :=
  match l with
  | [] => none
  | (k0, v) :: rest => if k0 = k then some v else lookupAssoc rest k

/-- Association-list update in place, appending new keys at the end
(modelling `Map.set` and JS-object key assignment). -/
def assocSet {α : Type} (l : List (String × α)) (k : String) (v : α) : List (String × α) :=
  match l with
  | [] => [(k, v)]
  | (k0, v0) :: rest => if k0 = k then (k, v) :: rest else (k0, v0) :: assocSet rest k v

/-! ## Patch-First: extraction (`patch-first.ts`) -/

/-- Source tag of an extracted patch. -/
inductive PatchSource
  | diff_code_block
  | patch_code_block
  | patch_section
deriving Repr, DecidableEq

/-- An extracted patch: text plus source tag. -/
structure ExtractedPatch where
  patch : String
  source : PatchSource
deriving Repr, DecidableEq

/-- Failure reasons of `PatchExtractionError`. -/
inductive PatchExtractionReason
  | not_found
  | invalid_format
  | path_violation
deriving Repr, DecidableEq

/-- Failure reasons of `PatchApplyError`. -/
inductive PatchApplyReason
  | context_mismatch
  | invalid_patch
  | not_git_repository
  | path_violation
  | timeout
  | unknown
deriving Repr, DecidableEq

/-- One fenced-block match of `/```([^\n`]*)\n([\s\S]*?)```/`: the info string,
the (lazy) body up to the first closing fence, and the remainder after it. -/
def findFenceClose : List Char → List Char → Option (List Char × List Char)
  | [], _ => none
  | c :: rest, acc =>
    if startsWithL ['`', '`', '`'] (c :: rest) then some (acc.reverse, (c :: rest).drop 3)
    else findFenceClose rest (c :: acc)

/-- Attempt the fenced-block pattern at the current position. -/
def matchFencedAt (cs : List Char) : Option (String × String × List Char) :=
  if startsWithL ['`', '`', '`'] cs then
    let after := cs.drop 3
    let info := after.takeWhile (fun c => c ≠ '\n' && c ≠ '`')
    let rest := after.drop info.length
    match rest with
    | '\n' :: tail =>
      match findFenceClose tail [] with
      | some (body, rest2) => some (⟨info⟩, ⟨body⟩, rest2)
      | none => none
    | _ => none
  else none

/-- Global scan for fenced blocks, in match order (regex `g` flag semantics). -/
def fencedBlocksAux : Nat → List Char → List (String × String)
  | 0, _ => []
  | fuel + 1, cs =>
    match matchFencedAt cs with
    | some (info, body, rest) => (info, body) :: fencedBlocksAux fuel rest
    | none =>
      match cs with
      | [] => []
      | _ :: rest => fencedBlocksAux fuel rest

/-- All fenced blocks of a string, in order. -/
def fencedBlocks (s : String) : List (String × String) :=
  fencedBlocksAux (s.toList.length + 1) s.toList

/-- First word of an info string after trim/lower-case (`split(/\s+/)[0]`). -/
def fenceLanguageOf (info : String) : String :=
  ⟨(jsToLower (jsTrim info)).toList.takeWhile (fun c => !jsWhitespaceChar c)⟩

/-- `findFencedBlock`: body of the first fenced block labeled `language`. -/
def findFencedBlock (text language : String) : Option String :=
  ((fencedBlocks text).find? (fun b => fenceLanguageOf b.1 = language)).map (fun b => b.2)

/-- Test of `/^###\s*PATCH\b/i` on a trimmed line. -/
def patchSectionHead (line : String) : Bool :=
  let cs := (jsTrim line).toList
  if startsWithL ['#', '#', '#'] cs then
    let r := (cs.drop 3).dropWhile jsWhitespaceChar
    startsWithL ['p', 'a', 't', 'c', 'h'] (r.map Char.toLower) &&
      (match (r.drop 5).head? with
       | none => true
       | some c => !(c.isAlphanum || c = '_'))
  else false

/-- Test of `/^###\s+\S/` on a trimmed line. -/
def nextSectionHead (line : String) : Bool :=
  let cs := (jsTrim line).toList
  if startsWithL ['#', '#', '#'] cs then
    let r := cs.drop 3
    let ws := r.takeWhile jsWhitespaceChar
    !ws.isEmpty && !(r.drop ws.length).isEmpty
  else false

/-- Collect the non-empty lines of a `### PATCH` section, stopping at the next
heading (`findPatchSection`'s inner loop). -/
def collectSectionLines : List String → List String
  | [] => []
  | line :: rest =>
    if line = "" then collectSectionLines rest
    else if nextSectionHead line then []
    else line :: collectSectionLines rest

/-- `findPatchSection`: content of a `### PATCH` section, if present. -/
def findPatchSection (text : String) : Option String :=
  let lines := jsSplitLines text
  match lines.findIdx? (fun l => patchSectionHead l) with
  | none => none
  | some i => some (String.intercalate "\n" (collectSectionLines (lines.drop (i + 1))))

/-- Replace `.replace(/^\s*\n/, '')`: drop through the last newline of the
maximal leading-whitespace run, when that run contains a newline. -/
def trimBlankLinesLead (cs : List Char) : List Char :=
  let p := cs.takeWhile jsWhitespaceChar
  match lastIndexOfChar '\n' p with
  | some i => cs.drop (i + 1)
  | none => cs

/-- The sources' `trimBlankLines`. -/
def trimBlankLines (s : String) : String :=
  let cs1 := trimBlankLinesLead s.toList
  let r := cs1.reverse
  let q := r.takeWhile jsWhitespaceChar
  match lastIndexOfChar '\n' q with
  | some j => ⟨(r.drop (j + 1)).reverse⟩
  | none => ⟨cs1⟩

/-- Capture of `/\[PATCH_BEGIN\]\s*([\s\S]*?)\s*\[PATCH_END\]/m`: the text
between the first marker pair, whitespace-trimmed on both sides. -/
def patchBeginCapture (s : String) : Option String :=
  let cs := s.toList
  match firstIndexOfSub "[PATCH_BEGIN]".toList cs with
  | none => none
  | some i =>
    let after := cs.drop (i + 13)
    match firstIndexOfSub "[PATCH_END]".toList after with
    | none => none
    | some j => some ⟨jsTrimL (after.take j)⟩

/-- The sources' `normalizePatchText`. -/
def normalizePatchText (text : String) : Except PatchExtractionReason String :=
  let n1 := trimBlankLines text
  if n1 = "" then .error .invalid_format
  else
    let n2 :=
      match patchBeginCapture n1 with
      | some m => if m ≠ "" then trimBlankLines m else n1
      | none => n1
    if n2 = "" then .error .invalid_format else .ok n2

/-- Line terminators after which a multiline `^` anchor matches in JS. -/
def jsLineTerminator (c : Char) : Bool :=
  c = '\n' || c = '\r' || c.val = 0x2028 || c.val = 0x2029

/-- Suffixes of a character list starting at multiline `^` anchor positions. -/
def multilineTailsAux : List Char → List (List Char)
  | [] => []
  | c :: rest =>
    if jsLineTerminator c then rest :: multilineTailsAux rest else multilineTailsAux rest

/-- All multiline line-start suffixes of a string. -/
def multilineTails (s : String) : List (List Char) :=
  s.toList :: multilineTailsAux s.toList

/-- Does some line start with the literal prefix followed by a whitespace char
(regex `^LIT\s+` with the `m` flag)? -/
def someLineStartsWithWs (s : String) (lit : String) : Bool :=
  (multilineTails s).any (fun t =>
    startsWithL lit.toList t &&
      (match (t.drop lit.toList.length).head? with
       | some c => jsWhitespaceChar c
       | none => false))

/-- The sources' `assertPatchShape`. -/
def assertPatchShape (patch : String) : Except PatchExtractionReason Unit :=
  let hasDiffGitHeader := someLineStartsWithWs patch "diff --git"
  let hasUnifiedHeaders :=
    someLineStartsWithWs patch "---" && someLineStartsWithWs patch "+++" &&
      someLineStartsWithWs patch "@@"
  if hasDiffGitHeader || hasUnifiedHeaders then .ok () else .error .invalid_format

/-- The sources' `unquotePatchPath`. -/
def unquotePatchPath (value : String) : String :=
  let trimmed := jsTrim value
  let cs := trimmed.toList
  match cs.head?, cs.getLast? with
  | some '"', some '"' =>
    jsReplaceAll (jsReplaceAll ⟨(cs.drop 1).dropLast⟩ "\\\"" "\"") "\\\\" "\\"
  | _, _ => trimmed

/-- Is the candidate an absolute POSIX path or a Windows drive path
(`path.posix.isAbsolute(candidate) || /^[a-zA-Z]:\//.test(candidate)`)? -/
def absoluteLikePath (cs : List Char) : Bool :=
  match cs with
  | '/' :: _ => true
  | a :: ':' :: '/' :: _ => a.isAlpha
  | _ => false

/-- The sources' `assertSafePathSegment` (line numbers in messages elided). -/
def assertSafePathSegment (rawPath : String) : Except PatchExtractionReason Unit :=
  let candidate := (unquotePatchPath rawPath).toList.map (fun c => if c = '\\' then '/' else c)
  if candidate = [] then .error .path_violation
  else if absoluteLikePath candidate then .error .path_violation
  else if (splitOnChar '/' candidate).any (fun seg => seg = "..".toList) then
    .error .path_violation
  else .ok ()

/-- Lazy split of `/^diff --git a\/(.+?) b\/(.+)$/`'s tail: the shortest
non-empty first group followed by " b/" and a non-empty second group. -/
def splitHeaderPaths : List Char → List Char → Option (String × String)
  | _, [] => none
  | acc, c :: rest =>
    if startsWithL [' ', 'b', '/'] rest ∧ rest.drop 3 ≠ [] then
      some (⟨(c :: acc).reverse⟩, ⟨rest.drop 3⟩)
    else splitHeaderPaths (c :: acc) rest

/-- Match of `/^diff --git a\/(.+?) b\/(.+)$/` on a whole line. -/
def matchDiffGitHeader (line : String) : Option (String × String) :=
  let cs := line.toList
  if startsWithL "diff --git a/".toList cs then
    splitHeaderPaths [] (cs.drop 13)
  else none

/-- Per-line body of `assertSafePatchPaths`. -/
def safePatchPathsLine (line : String) : Except PatchExtractionReason Unit :=
  if line = "" then .ok ()
  else if startsWithStr "diff --git " line then
    match matchDiffGitHeader line with
    | none => .ok ()
    | some (p1, p2) =>
      match assertSafePathSegment p1 with
      | .error e => .error e
      | .ok _ => assertSafePathSegment p2
  else if startsWithStr "--- " line || startsWithStr "+++ " line then
    let rawPath := jsTrim ⟨(line.toList.drop 4).takeWhile (fun c => c ≠ '\t')⟩
    let unquoted := unquotePatchPath rawPath
    if unquoted = "/dev/null" then .ok ()
    else
      let normalized :=
        if startsWithStr "a/" unquoted || startsWithStr "b/" unquoted then
          (⟨unquoted.toList.drop 2⟩ : String)
        else unquoted
      assertSafePathSegment normalized
  else .ok ()

/-- Fold of `safePatchPathsLine` over a list of lines. -/
def safePatchPathsLines : List String → Except PatchExtractionReason Unit
  | [] => .ok ()
  | line :: rest =>
    match safePatchPathsLine line with
    | .error e => .error e
    | .ok _ => safePatchPathsLines rest

/-- The sources' `assertSafePatchPaths`. -/
def assertSafePatchPaths (patch : String) : Except PatchExtractionReason Unit :=
  safePatchPathsLines (jsSplitLines patch)

/-- The sources' `finalizePatch`. -/
def finalizePatch (rawPatch : String) (source : PatchSource) :
    Except PatchExtractionReason ExtractedPatch :=
  match normalizePatchText rawPatch with
  | .error e => .error e
  | .ok normalizedPatch =>
    match assertPatchShape normalizedPatch with
    | .error e => .error e
    | .ok _ =>
      match assertSafePatchPaths normalizedPatch with
      | .error e => .error e
      | .ok _ => .ok { patch := normalizedPatch, source := source }

/-- The sources' `extractPatchFromText`. -/
def extractPatchFromText (text : String) : Except PatchExtractionReason ExtractedPatch :=
  let normalizedText := jsTrim text
  if normalizedText = "" then .error .not_found
  else
    match findFencedBlock normalizedText "diff" with
    | some block => finalizePatch block .diff_code_block
    | none =>
      match findFencedBlock normalizedText "patch" with
      | some block => finalizePatch block .patch_code_block
      | none =>
        match findPatchSection normalizedText with
        | some sec => finalizePatch sec .patch_section
        | none => .error .not_found

/-! ## Patch-First: application (`patch-first.ts`) -/

/-- Result of one spawned git invocation, as observed by the caller. -/
structure GitCommandResult where
  stdout : String
  stderr : String
  exitCode : Option Int
  timedOut : Bool
deriving Repr, DecidableEq

/-- The sources' `classifyGitFailureReason`. -/
def classifyGitFailureReason (stderr : String) : PatchApplyReason :=
  let normalized := (jsToLower stderr).toList
  if containsSub "patch does not apply".toList normalized ||
      containsSub "while searching for".toList normalized ||
      containsSub "patch failed".toList normalized then .context_mismatch
  else if containsSub "not a git repository".toList normalized then .not_git_repository
  else if containsSub "corrupt patch".toList normalized ||
      containsSub "malformed patch".toList normalized ||
      containsSub "unrecognized input".toList normalized then .invalid_patch
  else .unknown

/-- Outcome of `applyPatchToWorkspace`: either the pre-git path-safety check
raised (git never invoked), or git ran and its result was classified. -/
inductive ApplyOutcome
  | extractionError (reason : PatchExtractionReason)
  | applyError (reason : PatchApplyReason)
  | applied (stdout stderr : String)
deriving Repr, DecidableEq

/-- Newline-completion of the patch payload in `applyPatchToWorkspace`. -/
def patchPayload (patch : String) : String :=
  if endsWithStr "\n" patch then patch else patch ++ "\n"

/-- The sources' `applyPatchToWorkspace`, with the single `git apply` call
abstracted by its observed `GitCommandResult`.  The git result is only
consulted after `assertSafePatchPaths` succeeds on the literal patch text. -/
def applyPatchToWorkspace (patch : String) (git : GitCommandResult) : ApplyOutcome :=
  let payload := patchPayload patch
  match assertSafePatchPaths payload with
  | .error r => .extractionError r
  | .ok _ =>
    if git.timedOut then .applyError .timeout
    else if git.exitCode ≠ some 0 then .applyError (classifyGitFailureReason git.stderr)
    else .applied git.stdout git.stderr

/-- One step of `captureWorkingTreeDiff` (`runGitCommandOrThrow`). -/
def runGitCommandOrThrow (r : GitCommandResult) : Except PatchApplyReason GitCommandResult :=
  if r.timedOut then .error .timeout
  else if r.exitCode ≠ some 0 then .error (classifyGitFailureReason r.stderr)
  else .ok r

/-- The sources' `captureWorkingTreeDiff`, over the two observed git results. -/
def captureWorkingTreeDiff (statResult diffResult : GitCommandResult) :
    Except PatchApplyReason (String × String) := do
  let s ← runGitCommandOrThrow statResult
  let d ← runGitCommandOrThrow diffResult
  .ok (jsTrimEnd s.stdout, jsTrimEnd d.stdout)

/-! ## Gatekeeper (`gatekeeper.ts`) -/

/-- The command-runner's execution result (`command-runner.ts`). -/
structure CommandExecutionResult where
  commandId : String
  command : List String
  stdout : String
  stderr : String
  exitCode : Option Int
  durationMs : Int
  timedOut : Bool
deriving Repr, DecidableEq

/-- The sources' `isFailedResult` on a present result. -/
def isFailedResult (r : CommandExecutionResult) : Bool :=
  r.timedOut || r.exitCode ≠ some 0

/-- The sources' `isFailedResult` (absent results are not failures). -/
def isFailedResultOpt (r : Option CommandExecutionResult) : Bool :=
  match r with
  | none => false
  | some r => isFailedResult r

/-- A parsed `git diff --name-status` entry. -/
structure NameStatusEntry where
  status : String
  path : String
deriving Repr, DecidableEq

/-- A parsed `git diff --numstat` entry. -/
structure NumstatEntry where
  added : Int
  deleted : Int
  path : String
deriving Repr, DecidableEq

/-- The sources' `parseNameStatusOutput`. -/
def parseNameStatusLine (line : String) : Option NameStatusEntry :=
  let trimmed := jsTrim line
  if trimmed = "" then none
  else
    let parts := (splitOnChar '\t' trimmed.toList).map (fun l => (⟨l⟩ : String))
    let rawStatus := jsTrim (parts.headD "")
    let rawPath := if parts.length ≥ 3 then parts.get? 2 else parts.get? 1
    let path := jsTrim (rawPath.getD "")
    if rawStatus = "" || path = "" then none
    else
      let status :=
        match rawStatus.toList.head? with
        | some c => String.singleton c
        | none => rawStatus
      some { status := status, path := path }

/-- All `--name-status` entries of a diff output. -/
def parseNameStatusOutput (output : String) : List NameStatusEntry :=
  (jsSplitLines output).filterMap parseNameStatusLine

/-- The sources' `parseNumstatOutput`, one line. -/
def parseNumstatLine (line : String) : Option NumstatEntry :=
  let trimmed := jsTrim line
  if trimmed = "" then none
  else
    let parts := (splitOnChar '\t' trimmed.toList).map (fun l => (⟨l⟩ : String))
    let addedRaw := jsTrim (parts.headD "")
    let deletedRaw := jsTrim ((parts.get? 1).getD "")
    let path := jsTrim ((parts.get? 2).getD "")
    if path = "" then none
    else
      let added := if addedRaw = "-" then some (0 : Int) else jsParseInt addedRaw
      let deleted := if deletedRaw = "-" then some (0 : Int) else jsParseInt deletedRaw
      match added, deleted with
      | some a, some d => some { added := a, deleted := d, path := path }
      | _, _ => none

/-- All `--numstat` entries of a diff output. -/
def parseNumstatOutput (output : String) : List NumstatEntry :=
  (jsSplitLines output).filterMap parseNumstatLine

/-- Insertion-ordered de-duplication, modelling a JS `Set`. -/
def addUnique (l : List String) (x : String) : List String :=
  if l.contains x then l else l ++ [x]

/-- Default security-sensitive path pattern
`/(^|\/)(auth|security|secrets?|credentials?|tokens?|permissions?)(\/|$)|\.env/i`. -/
def securityKeywords : List String :=
  ["auth", "security", "secrets", "secret", "credentials", "credential",
   "tokens", "token", "permissions", "permission"]

/-- Test of the default security path pattern on one path. -/
def defaultSecurityPathTest (p : String) : Bool :=
  let cs := (jsToLower p).toList
  (splitsOf cs).any (fun pr =>
    (pr.1 = [] || pr.1.getLast? = some '/') &&
      securityKeywords.any (fun kw =>
        startsWithL kw.toList pr.2 &&
          (match (pr.2.drop kw.toList.length).head? with
           | none => true
           | some c => c = '/'))) ||
  containsSub ".env".toList cs

/-- Input record of `evaluateRiskFromDiffOutputs`. -/
structure EvaluateRiskInput where
  nameStatusOutput : String
  numstatOutput : String
  nameStatusResult : Option CommandExecutionResult := none
  numstatResult : Option CommandExecutionResult := none
  largeChangeFileThreshold : Option Int := none
  largeChangeLineThreshold : Option Int := none
  securityPathTest : Option (String → Bool) := none

/-- The sources' `ChangeRiskDecision`. -/
structure ChangeRiskDecision where
  requiresApproval : Bool
  reasons : List String
  deletedFiles : List String
  securitySensitiveFiles : List String
  changedFileCount : Nat
  totalChangedLines : Int
deriving Repr, DecidableEq

/-- Exit-code rendering used in the failure reason (`exitCode ?? 'null'`). -/
def exitCodeLabel (e : Option Int) : String :=
  match e with
  | some n => intDecimal n
  | none => "null"

/-- Failure reason for a diff analysis command. -/
def diffCommandFailureReason (r : CommandExecutionResult) : String :=
  let cid := r.commandId
  let ec := exitCodeLabel r.exitCode
  s!"변경 분석 명령 실패: {cid} (exitCode={ec})"

/-- Failure reasons for the two underlying diff commands, in order. -/
def riskFailReasons (nameStatusResult numstatResult : Option CommandExecutionResult) :
    List String :=
  (match nameStatusResult with
   | some r => if isFailedResult r then [diffCommandFailureReason r] else []
   | none => []) ++
  (match numstatResult with
   | some r => if isFailedResult r then [diffCommandFailureReason r] else []
   | none => [])

/-- Deletion reason group. -/
def riskDeletionReasons (deletedFiles : List String) : List String :=
  if deletedFiles.length > 0 then
    let n := natDecimal deletedFiles.length
    [s!"파일 삭제 감지({n}건)"]
  else []

/-- Security-sensitive-path reason group. -/
def riskSecurityReasons (securitySensitiveFiles : List String) : List String :=
  if securitySensitiveFiles.length > 0 then
    let n := natDecimal securitySensitiveFiles.length
    [s!"보안 민감 경로 변경 감지({n}건)"]
  else []

/-- Large-change reason for the changed-file count. -/
def riskFileSizeReasons (changedFileCount : Nat) (fileThreshold : Int) : List String :=
  if (changedFileCount : Int) ≥ fileThreshold then
    let n := natDecimal changedFileCount
    [s!"대규모 변경 감지: 변경 파일 수 {n}건"]
  else []

/-- Large-change reason for the changed-line total. -/
def riskLineSizeReasons (totalChangedLines lineThreshold : Int) : List String :=
  if totalChangedLines ≥ lineThreshold then
    let n := intDecimal totalChangedLines
    [s!"대규모 변경 감지: 변경 라인 수 {n}줄"]
  else []

/-- The sources' `evaluateRiskFromDiffOutputs`. -/
def evaluateRiskFromDiffOutputs (input : EvaluateRiskInput) : ChangeRiskDecision :=
  let failReasons := riskFailReasons input.nameStatusResult input.numstatResult
  let nameStatusEntries := parseNameStatusOutput input.nameStatusOutput
  let numstatEntries := parseNumstatOutput input.numstatOutput
  let deletedFiles := (nameStatusEntries.filter (fun e => e.status = "D")).map (fun e => e.path)
  let deletionReasons := riskDeletionReasons deletedFiles
  let changedPaths :=
    (nameStatusEntries.map (fun e => e.path) ++ numstatEntries.map (fun e => e.path)).foldl
      addUnique []
  let secTest := input.securityPathTest.getD defaultSecurityPathTest
  let securitySensitiveFiles := changedPaths.filter secTest
  let securityReasons := riskSecurityReasons securitySensitiveFiles
  let changedFileCount := changedPaths.length
  let totalChangedLines := numstatEntries.foldl (fun sum e => sum + e.added + e.deleted) 0
  let fileThreshold := input.largeChangeFileThreshold.getD 20
  let lineThreshold := input.largeChangeLineThreshold.getD 500
  let fileSizeReasons := riskFileSizeReasons changedFileCount fileThreshold
  let lineSizeReasons := riskLineSizeReasons totalChangedLines lineThreshold
  let reasons := failReasons ++ deletionReasons ++ securityReasons ++ fileSizeReasons ++
    lineSizeReasons
  { requiresApproval := reasons.length > 0
    reasons := reasons
    deletedFiles := deletedFiles
    securitySensitiveFiles := securitySensitiveFiles
    changedFileCount := changedFileCount
    totalChangedLines := totalChangedLines }

/-- Gatekeeper verdict actions. -/
inductive GkAction
  | pass
  | auto_fix
  | fail
deriving Repr, DecidableEq

/-- The sources' `GatekeeperCheckDecision`. -/
structure GatekeeperCheckDecision where
  action : GkAction
  failedCommandIds : List String
  message : String
deriving Repr, DecidableEq

/-- The sources' `decideCheckFailure`. -/
def decideCheckFailure (checkResults : List CommandExecutionResult) (retryCount : Int)
    (maxAutoFixRetries : Int) : GatekeeperCheckDecision :=
  let failed := checkResults.filter isFailedResult
  if failed.length = 0 then
    { action := .pass, failedCommandIds := [], message := "검증 커맨드가 모두 성공했습니다." }
  else
    let failedCommandIds := failed.map (fun r => r.commandId)
    let retriesLeft := maxAutoFixRetries - retryCount
    let ids := String.intercalate ", " failedCommandIds
    if retriesLeft > 0 then
      let left := intDecimal retriesLeft
      { action := .auto_fix
        failedCommandIds := failedCommandIds
        message := s!"검증 실패({ids})로 auto-fix를 시도합니다. 남은 재시도: {left}" }
    else
      { action := .fail
        failedCommandIds := failedCommandIds
        message := s!"검증 실패({ids}) 및 재시도 한도 초과" }

/-! ## State store (`state-store.ts`) -/

/-- The sources' `RunStatePhase`. -/
structure RunStatePhase where
  id : String
  status : String
  startedAt : Option String := none
  updatedAt : Option String := none
  artifacts : Option (List String) := none
  error : Option String := none
deriving Repr, DecidableEq

/-- The sources' `RunState`.  `retries` is an integer number; `artifacts` is a
JS object modelled as an insertion-ordered association list. -/
structure RunState where
  status : String
  current_phase : Option String
  phases : List RunStatePhase
  retries : Int
  startedAt : String
  updatedAt : String
  artifacts : List (String × List String)
deriving Repr, DecidableEq

/-- The sources' `assertValidRunState` (array/object type checks that the
embedding enforces by type are omitted). -/
def assertValidRunState (state : RunState) : Except String Unit :=
  if state.status = "" then .error "state.status는 필수입니다."
  else if ¬(0 ≤ state.retries) then .error "state.retries는 0 이상의 정수여야 합니다."
  else if state.startedAt = "" then .error "state.startedAt은 필수 ISO 문자열이어야 합니다."
  else if state.updatedAt = "" then .error "state.updatedAt은 필수 ISO 문자열이어야 합니다."
  else if state.phases.any (fun p => p.id = "") then .error "state.phases[].id는 필수입니다."
  else if state.phases.any (fun p => p.status = "") then
    .error "state.phases[].status는 필수입니다."
  else if state.artifacts.any (fun kv => kv.1 = "") then
    .error "state.artifacts의 key는 비어 있을 수 없습니다."
  else .ok ()

/-- The sources' `normalizeRunState`; `now` stands for `new Date().toISOString()`. -/
def normalizeRunState (touchUpdatedAt : Bool) (fallbackStartedAt : Option String)
    (now : String) (state : RunState) : Except String RunState :=
  let startedAt :=
    if state.startedAt ≠ "" then state.startedAt
    else if (fallbackStartedAt.getD "") ≠ "" then fallbackStartedAt.getD ""
    else now
  let updatedAt :=
    if touchUpdatedAt then now
    else if state.updatedAt ≠ "" then state.updatedAt
    else startedAt
  let normalized : RunState :=
    { status := state.status
      current_phase := state.current_phase
      phases := state.phases.map (fun p =>
        { id := p.id, status := p.status, startedAt := p.startedAt, updatedAt := p.updatedAt
          artifacts := p.artifacts, error := p.error })
      retries := state.retries
      startedAt := startedAt
      updatedAt := updatedAt
      artifacts := state.artifacts.map (fun kv => (kv.1, kv.2)) }
  match assertValidRunState normalized with
  | .error e => .error e
  | .ok _ => .ok normalized

/-- The sources' `createInitialRunState` over a partial seed. -/
def createInitialRunState (seedStatus : Option String) (seedCurrent : Option (Option String))
    (seedPhases : Option (List RunStatePhase)) (seedRetries : Option Int)
    (seedStartedAt seedUpdatedAt : Option String)
    (seedArtifacts : Option (List (String × List String))) (now : String) :
    Except String RunState :=
  let t := seedStartedAt.getD now
  normalizeRunState false none now
    { status := seedStatus.getD "created"
      current_phase := seedCurrent.getD none
      phases := seedPhases.getD []
      retries := seedRetries.getD 0
      startedAt := seedStartedAt.getD t
      updatedAt := seedUpdatedAt.getD t
      artifacts := seedArtifacts.getD [] }

/-- `StateStore.load` over the parsed on-disk snapshot (ENOENT is `none`). -/
def stateStoreLoad (disk : Option RunState) (now : String) :
    Except String (Option RunState) :=
  match disk with
  | none => .ok none
  | some raw =>
    match normalizeRunState false none now raw with
    | .error e => .error e
    | .ok s => .ok (some s)

/-- `StateStore.save`: normalize without touching `updatedAt`, then write
atomically.  Returns the new disk content and the returned state. -/
def stateStoreSave (state : RunState) (now : String) : Except String RunState :=
  normalizeRunState false none now state

/-- `StateStore.update`: load (or synthesize when explicitly permitted), apply
the transform, stamp `updatedAt`, validate and write atomically.  The first
component is the resulting on-disk snapshot; on any error the disk is
untouched. -/
def stateStoreUpdate (disk : Option RunState) (updater : RunState → Except String RunState)
    (createIfMissing : Bool) (initialState : Option RunState) (now : String) :
    Option RunState × Except String RunState :=
  match stateStoreLoad disk now with
  | .error e => (disk, .error e)
  | .ok loaded =>
    let currentE : Except String RunState :=
      match loaded with
      | some s => .ok s
      | none =>
        if createIfMissing then
          match initialState with
          | some init => normalizeRunState false none now init
          | none => createInitialRunState none none none none none none none now
        else .error "상태 파일이 없습니다"
    match currentE with
    | .error e => (disk, .error e)
    | .ok current =>
      match updater current with
      | .error e => (disk, .error e)
      | .ok next =>
        match normalizeRunState true (some current.startedAt) now next with
        | .error e => (disk, .error e)
        | .ok normalized => (some normalized, .ok normalized)

/-! ## Artifact store (`artifact-store.ts`) -/

/-- Node `path.posix.normalize` segment processing. -/
def posixNormalizeSegs (allowAboveRoot : Bool) (segs : List String) : List String :=
  segs.foldl (fun stack seg =>
    if seg = "" ∨ seg = "." then stack
    else if seg = ".." then
      match stack.getLast? with
      | some last =>
        if last ≠ ".." then stack.dropLast
        else if allowAboveRoot then stack ++ [".."] else stack
      | none => if allowAboveRoot then stack ++ [".."] else stack
    else stack ++ [seg]) []

/-- Node `path.posix.normalize`. -/
def posixNormalize (p : String) : String :=
  if p = "" then "."
  else
    let isAbs := p.toList.head? = some '/'
    let trailing := p.toList.getLast? = some '/' 
    let body := String.intercalate "/"
      (posixNormalizeSegs (!isAbs) ((splitOnChar '/' p.toList).map (fun l => (⟨l⟩ : String))))
    if body = "" then
      if isAbs then "/" else if trailing then "./" else "."
    else
      let withTrail := if trailing then body ++ "/" else body
      if isAbs then "/" ++ withTrail else withTrail

/-- The sources' `normalizeRelativePath`. -/
def normalizeRelativePath (value label : String) : Except String String :=
  let trimmed := jsTrim value
  if trimmed = "" then .error s!"{label}는 비어 있을 수 없습니다."
  else
    let normalized :=
      posixNormalize ⟨trimmed.toList.map (fun c => if c = '\\' then '/' else c)⟩
    if normalized.toList.head? = some '/' || normalized = ".." ||
        startsWithStr "../" normalized then
      .error s!"{label}는 상대 경로여야 합니다: {value}"
    else .ok normalized

/-- The sources' `normalizePhase`. -/
def normalizePhase (value : String) : Except String String :=
  match normalizeRelativePath value "phase" with
  | .error e => .error e
  | .ok normalized =>
    if normalized.toList.contains '/' then
      .error s!"phase는 단일 세그먼트여야 합니다: {value}"
    else .ok normalized

/-- Relative path of an artifact below the artifacts root:
`path.relative(artifactsDir, path.resolve(artifactsDir, phase, name))` for a
validated phase and name (validation leaves no `..` segments in the name). -/
def artifactRelativePath (phase name : String) : String :=
  let segs := ((splitOnChar '/' name.toList).map (fun l => (⟨l⟩ : String))).filter
    (fun s => s ≠ "" ∧ s ≠ ".")
  String.intercalate "/" (phase :: segs)

/-- The sources' `ensurePathWithinRoot`, expressed on the relative path. -/
def ensurePathWithinRoot (relative : String) : Except String Unit :=
  if relative = "" || (!startsWithStr ".." relative && relative.toList.head? ≠ some '/') then
    .ok ()
  else .error s!"artifact path가 root 범위를 벗어났습니다: {relative}"

/-- The sources' `ArtifactRecord`. -/
structure ArtifactRecord where
  phase : String
  name : String
  relativePath : String
  bytes : Nat
  updatedAt : String
deriving Repr, DecidableEq

/-- Lexicographic character-list ordering used for the index sort (modelling
the `localeCompare` sort on paths). -/
def listLeChars : List Char → List Char → Bool
  | [], _ => true
  | _ :: _, [] => false
  | a :: as, b :: bs => if a = b then listLeChars as bs else decide (a.val < b.val)

/-- Lexicographic string ordering. -/
def strLe (a b : String) : Bool := listLeChars a.toList b.toList

/-- Stable insertion of an index record ordered by `relativePath`. -/
def insertByPath (r : ArtifactRecord) : List ArtifactRecord → List ArtifactRecord
  | [] => [r]
  | x :: rest =>
    if strLe r.relativePath x.relativePath then r :: x :: rest else x :: insertByPath r rest

/-- Sort index records by `relativePath` (modelling the `localeCompare` sort). -/
def sortByPath : List ArtifactRecord → List ArtifactRecord
  | [] => []
  | x :: rest => insertByPath x (sortByPath rest)

/-- Keyed replacement in the index (`Map.set` on `relativePath`). -/
def indexReplace (index : List ArtifactRecord) (r : ArtifactRecord) : List ArtifactRecord :=
  match index with
  | [] => [r]
  | x :: rest =>
    if x.relativePath = r.relativePath then r :: rest else x :: indexReplace rest r

/-- `ArtifactStore.updateIndex`: replace by path, then sort. -/
def updateIndex (index : List ArtifactRecord) (r : ArtifactRecord) : List ArtifactRecord :=
  sortByPath (indexReplace index r)

/-- `ArtifactStore.resolveArtifactPath`. -/
def resolveArtifactPath (phase name : String) : Except String (String × String × String) := do
  let p ← normalizePhase phase
  let n ← normalizeRelativePath name "name"
  let rel := artifactRelativePath p n
  ensurePathWithinRoot rel
  .ok (rel, p, n)

/-- `ArtifactStore.write` over the in-model filesystem (`writeFile` overwrites
the path) and index.  Returns the new filesystem, new index and the record. -/
def artifactStoreWrite (fs : List (String × String)) (index : List ArtifactRecord)
    (phase name content : String) (now : String) :
    Except String (List (String × String) × List ArtifactRecord × ArtifactRecord) := do
  let (rel, p, n) ← resolveArtifactPath phase name
  let fs2 := assocSet fs rel content
  let record : ArtifactRecord :=
    { phase := p, name := n, relativePath := rel, bytes := content.utf8ByteSize
      updatedAt := now }
  .ok (fs2, updateIndex index record, record)

/-! ## Workflow parser (`workflow.ts`) -/

/-- The sources' `stripLineComment` scanner. -/
def stripLineCommentAux : List Char → Bool → Bool → List Char → List Char
  | [], _, _, acc => acc.reverse
  | c :: rest, sq, dq, acc =>
    if c = '\'' ∧ ¬dq then stripLineCommentAux rest (!sq) dq (c :: acc)
    else if c = '"' ∧ ¬sq then stripLineCommentAux rest sq (!dq) (c :: acc)
    else if c = '#' ∧ ¬sq ∧ ¬dq then acc.reverse
    else stripLineCommentAux rest sq dq (c :: acc)

/-- The sources' `stripLineComment`. -/
def stripLineComment (line : String) : String :=
  ⟨stripLineCommentAux line.toList false false []⟩

/-- The sources' `countLeadingSpaces`. -/
def countLeadingSpaces (line : String) : Nat :=
  (line.toList.takeWhile (fun c => c = ' ')).length

/-- The sources' `parseScalarValue`. -/
def parseScalarValue (raw : String) : String :=
  if raw = "" then ""
  else
    let cs := raw.toList
    if (cs.head? = some '"' ∧ cs.getLast? = some '"') ∨
        (cs.head? = some '\'' ∧ cs.getLast? = some '\'') then
      let body : String := ⟨(cs.drop 1).dropLast⟩
      jsReplaceAll (jsReplaceAll (jsReplaceAll (jsReplaceAll
        (jsReplaceAll body "\\n" "\n") "\\t" "\t") "\\\"" "\"") "\\'" "'") "\\\\" "\\"
    else raw

/-- The sources' `parseKeyValue`. -/
def parseKeyValue (line : String) : Except String (String × String) :=
  match firstIndexOfSub [':'] line.toList with
  | none => .error s!"key: value 형식이 아닙니다: {line}"
  | some i =>
    let key := jsTrim ⟨line.toList.take i⟩
    let rawValue := jsTrim ⟨line.toList.drop (i + 1)⟩
    if key = "" then .error s!"key가 비어 있습니다: {line}"
    else .ok (key, parseScalarValue rawValue)

/-- Scanner state of `parseWorkflowYaml`'s line loop. -/
structure WorkflowScan where
  topLevel : List (String × String)
  phaseEntries : List (List (String × String))
  inPhases : Bool
  hasCurrent : Bool
deriving Repr, DecidableEq

/-- Assign a key in the current (last) phase entry. -/
def setLastEntry (entries : List (List (String × String))) (k v : String) :
    List (List (String × String)) :=
  match entries.getLast? with
  | none => entries
  | some last => entries.dropLast ++ [assocSet last k v]

/-- One line of `parseWorkflowYaml`'s scanning loop. -/
def scanWorkflowLine (st : WorkflowScan) (originalLine : String) : Except String WorkflowScan :=
  let withoutComment := jsTrimEnd (stripLineComment originalLine)
  if jsTrim withoutComment = "" then .ok st
  else
    let indentation := countLeadingSpaces withoutComment
    let trimmed := jsTrim withoutComment
    let st :=
      if st.inPhases ∧ indentation < 2 then { st with inPhases := false, hasCurrent := false }
      else st
    if ¬st.inPhases then
      if trimmed = "phases:" then .ok { st with inPhases := true }
      else
        match parseKeyValue trimmed with
        | .error e => .error e
        | .ok kv => .ok { st with topLevel := assocSet st.topLevel kv.1 kv.2 }
    else if startsWithStr "- " trimmed then
      let inline := jsTrim ⟨trimmed.toList.drop 2⟩
      if inline = "" then
        .ok { st with phaseEntries := st.phaseEntries ++ [[]], hasCurrent := true }
      else
        match parseKeyValue inline with
        | .error e => .error e
        | .ok kv =>
          .ok { st with phaseEntries := st.phaseEntries ++ [[(kv.1, kv.2)]], hasCurrent := true }
    else if indentation < 4 ∨ ¬st.hasCurrent then
      .error s!"지원하지 않는 workflow phases 형식입니다: {originalLine}"
    else
      match parseKeyValue trimmed with
      | .error e => .error e
      | .ok kv => .ok { st with phaseEntries := setLastEntry st.phaseEntries kv.1 kv.2 }

/-- The scanning stage of `parseWorkflowYaml`. -/
def scanWorkflowLines (yamlText : String) : Except String WorkflowScan :=
  (jsSplitLines yamlText).foldlM scanWorkflowLine
    { topLevel := [], phaseEntries := [], inPhases := false, hasCurrent := false }

/-- The sources' `LlmWorkflowPhase`. -/
structure LlmWorkflowPhase where
  id : String
  role : String
  provider : Option String := none
  systemPromptTemplate : Option String := none
  systemPromptFile : Option String := none
  promptTemplate : String
  next : Option String := none
  decisionSource : Option String := none
  nextOnPass : Option String := none
  nextOnFix : Option String := none
  nextOnAsk : Option String := none
  terminalStatus : Option String := none
deriving Repr, DecidableEq

/-- The sources' `ApprovalWorkflowPhase`. -/
structure ApprovalWorkflowPhase where
  id : String
  promptTemplate : String
  nextOnApprove : Option String := none
  nextOnReject : Option String := none
  terminalStatus : Option String := none
deriving Repr, DecidableEq

/-- The sources' `WorkflowPhase` tagged union. -/
inductive WorkflowPhase
  | llm (p : LlmWorkflowPhase)
  | approval (p : ApprovalWorkflowPhase)
deriving Repr, DecidableEq

/-- Identifier of a workflow phase. -/
def wfPhaseId : WorkflowPhase → String
  | .llm p => p.id
  | .approval p => p.id

/-- The sources' `WorkflowDefinition`; `maxSteps` is positive by construction. -/
structure WorkflowDefinition where
  name : String
  entryPhase : String
  maxSteps : Nat
  phases : List WorkflowPhase
deriving Repr, DecidableEq

/-- The sources' `optionalValue`. -/
def optionalValue (value : Option String) : Option String :=
  match value with
  | none => none
  | some s =>
    let t := jsTrim s
    if t = "" then none else some t

/-- The sources' `requiredValue`. -/
def requiredValue (value : Option String) (label : String) : Except String String :=
  match optionalValue value with
  | none => .error s!"{label}는 필수입니다."
  | some v => .ok v

/-- JS `??` on optional strings. -/
def jsCoalesce (a b : Option String) : Option String :=
  match a with
  | some x => some x
  | none => b

/-- JS `||` on optional strings (empty string is falsy). -/
def jsOrString (a b : Option String) : Option String :=
  match a with
  | some s => if s ≠ "" then some s else b
  | none => b

/-- The sources' `VALID_RUN_STATUSES`. -/
def validRunStatuses : List String :=
  ["created", "running", "awaiting_approval", "awaiting_input", "completed", "failed",
   "canceled"]

/-- The sources' `parseOptionalRunStatus`. -/
def parseOptionalRunStatus (value : Option String) : Except String (Option String) :=
  match optionalValue value with
  | none => .ok none
  | some normalized =>
    if ¬validRunStatuses.contains normalized then
      .error s!"지원하지 않는 terminal_status입니다: {normalized}"
    else .ok (some normalized)

/-- The sources' `parsePositiveInteger` (`Number.parseInt(value.trim(), 10)`
followed by the integrality and positivity check). -/
def parsePositiveInteger (value label : String) : Except String Nat :=
  match jsParseInt (jsTrim value) with
  | none => .error s!"{label}는 1 이상의 정수여야 합니다: {value}"
  | some parsed =>
    if parsed ≤ 0 then .error s!"{label}는 1 이상의 정수여야 합니다: {value}"
    else .ok parsed.toNat

/-- The sources' `parsePhaseEntry`. -/
def parsePhaseEntry (entry : List (String × String)) : Except String WorkflowPhase :=
  match requiredValue (lookupAssoc entry "id") "phases[].id" with
  | .error e => .error e
  | .ok id =>
    let phaseType := (optionalValue (lookupAssoc entry "type")).getD "llm"
    match requiredValue (jsCoalesce (lookupAssoc entry "prompt_template")
        (lookupAssoc entry "prompt")) s!"phases[{id}].prompt_template" with
    | .error e => .error e
    | .ok promptTemplate =>
      match parseOptionalRunStatus (lookupAssoc entry "terminal_status") with
      | .error e => .error e
      | .ok terminalStatus =>
        if phaseType = "approval" then
          .ok (.approval
            { id := id
              promptTemplate := promptTemplate
              nextOnApprove := optionalValue (lookupAssoc entry "next_on_approve")
              nextOnReject := optionalValue (lookupAssoc entry "next_on_reject")
              terminalStatus := terminalStatus })
        else if phaseType ≠ "llm" then .error s!"지원하지 않는 phase.type입니다: {phaseType}"
        else
          match requiredValue (lookupAssoc entry "role") s!"phases[{id}].role" with
          | .error e => .error e
          | .ok role =>
            let decisionSourceRaw := optionalValue (lookupAssoc entry "decision_source")
            if decisionSourceRaw.getD "output_tag" ≠ "output_tag" then
              let ds := decisionSourceRaw.getD ""
              .error s!"지원하지 않는 decision_source입니다: {ds}"
            else
              .ok (.llm
                { id := id
                  role := role
                  provider := optionalValue (lookupAssoc entry "provider")
                  systemPromptTemplate := optionalValue (lookupAssoc entry "system_prompt")
                  systemPromptFile := optionalValue (lookupAssoc entry "system_prompt_file")
                  promptTemplate := promptTemplate
                  next := optionalValue (lookupAssoc entry "next")
                  decisionSource := decisionSourceRaw
                  nextOnPass := optionalValue (lookupAssoc entry "next_on_pass")
                  nextOnFix := optionalValue (lookupAssoc entry "next_on_fix")
                  nextOnAsk := optionalValue (lookupAssoc entry "next_on_ask")
                  terminalStatus := terminalStatus })

/-- Duplicate phase-id check of `parseWorkflowYaml`. -/
def checkDuplicateIds : List WorkflowPhase → List String → Except String Unit
  | [], _ => .ok ()
  | p :: rest, seen =>
    if seen.contains (wfPhaseId p) then
      let pid := wfPhaseId p
      .error s!"phase id가 중복되었습니다: {pid}"
    else checkDuplicateIds rest (seen ++ [wfPhaseId p])

/-- The sources' `assertTransitionTarget` (empty targets are skipped). -/
def assertTransitionTarget (candidate : Option String) (phaseIds : List String)
    (label : String) : Except String Unit :=
  match candidate with
  | none => .ok ()
  | some c =>
    if c = "" then .ok ()
    else if phaseIds.contains c then .ok ()
    else .error s!"전이 대상 phase가 없습니다: {label} -> {c}"

/-- The sources' `validatePhaseTransitions`. -/
def validatePhaseTransitions (phase : WorkflowPhase) (phaseIds : List String) :
    Except String Unit :=
  match phase with
  | .approval p => do
    assertTransitionTarget p.nextOnApprove phaseIds s!"{p.id}.next_on_approve"
    assertTransitionTarget p.nextOnReject phaseIds s!"{p.id}.next_on_reject"
  | .llm p => do
    assertTransitionTarget p.next phaseIds s!"{p.id}.next"
    assertTransitionTarget p.nextOnPass phaseIds s!"{p.id}.next_on_pass"
    assertTransitionTarget p.nextOnFix phaseIds s!"{p.id}.next_on_fix"
    assertTransitionTarget p.nextOnAsk phaseIds s!"{p.id}.next_on_ask"

/-- Transition validation over all phases, in order. -/
def validateAllTransitions : List WorkflowPhase → List String → Except String Unit
  | [], _ => .ok ()
  | p :: rest, phaseIds =>
    match validatePhaseTransitions p phaseIds with
    | .error e => .error e
    | .ok _ => validateAllTransitions rest phaseIds

/-- `max_steps` resolution of `parseWorkflowYaml`: a missing or empty raw
value falls back to the default 20, otherwise `parsePositiveInteger`. -/
def resolveMaxSteps (topLevel : List (String × String)) : Except String Nat :=
  match lookupAssoc topLevel "max_steps" with
  | some v => if v ≠ "" then parsePositiveInteger v "max_steps" else .ok 20
  | none => .ok 20

/-- Construction stage of `parseWorkflowYaml`: name, phases, duplicate check,
entry-phase defaulting, `max_steps` defaulting, transition validation. -/
def buildWorkflowDefinition (topLevel : List (String × String))
    (phaseEntries : List (List (String × String))) : Except String WorkflowDefinition :=
  match requiredValue (lookupAssoc topLevel "name") "name" with
  | .error e => .error e
  | .ok name =>
    if phaseEntries.length = 0 then .error "phases는 최소 1개 이상이어야 합니다."
    else
      match phaseEntries.mapM parsePhaseEntry with
      | .error e => .error e
      | .ok phases =>
        match checkDuplicateIds phases [] with
        | .error e => .error e
        | .ok _ =>
          let phaseIds := phases.map wfPhaseId
          match jsOrString ((lookupAssoc topLevel "entry_phase").map jsTrim)
              (phases.head?.map wfPhaseId) with
          | none => .error "entry phase를 결정할 수 없습니다."
          | some ep =>
            if ep = "" then .error "entry phase를 결정할 수 없습니다."
            else if ¬phaseIds.contains ep then
              .error s!"entry_phase가 phases에 없습니다: {ep}"
            else
              match resolveMaxSteps topLevel with
              | .error e => .error e
              | .ok maxSteps =>
                match validateAllTransitions phases phaseIds with
                | .error e => .error e
                | .ok _ =>
                  .ok { name := name, entryPhase := ep, maxSteps := maxSteps, phases := phases }

/-- The sources' `parseWorkflowYaml`. -/
def parseWorkflowYaml (yamlText : String) : Except String WorkflowDefinition :=
  match scanWorkflowLines yamlText with
  | .error e => .error e
  | .ok sc => buildWorkflowDefinition sc.topLevel sc.phaseEntries

/-! ## Decision-tag parsing (`command-runner.ts`, `parseDecisionFromOutput`) -/

/-- Three-way workflow decision. -/
inductive WorkflowDecision
  | pass
  | fix
  | ask
deriving Repr, DecidableEq

/-- JS regex word character (`\w`). -/
def wordChar (c : Char) : Bool := c.isAlphanum || c = '_'

/-- Word boundary after a match: next character absent or not a word char. -/
def boundaryAfter (cs : List Char) : Bool :=
  match cs.head? with
  | none => true
  | some c => !wordChar c

/-- Case-insensitive prefix test; the pattern is given in lower case. -/
def startsWithCI : List Char → List Char → Bool
  | [], _ => true
  | _ :: _, [] => false
  | p :: ps, c :: cs => p = c.toLower && startsWithCI ps cs

/-- Match of `/DECISION\s*:\s*(PASS|FIX|ASK)\b/i` at one position. -/
def decisionTagAt (suf : List Char) : Option WorkflowDecision :=
  if startsWithCI "decision".toList suf then
    let r := (suf.drop 8).dropWhile jsWhitespaceChar
    match r with
    | ':' :: r2 =>
      let r3 := r2.dropWhile jsWhitespaceChar
      if startsWithCI "pass".toList r3 && boundaryAfter (r3.drop 4) then some .pass
      else if startsWithCI "fix".toList r3 && boundaryAfter (r3.drop 3) then some .fix
      else if startsWithCI "ask".toList r3 && boundaryAfter (r3.drop 3) then some .ask
      else none
    | _ => none
  else none

/-- Leftmost explicit `DECISION:` tag of a text. -/
def findDecisionTag (text : String) : Option WorkflowDecision :=
  (splitsOf text.toList).findSome? (fun pr => decisionTagAt pr.2)

/-- Case-insensitive substring containment (`/LIT/i.test(text)`). -/
def containsCI (pat text : String) : Bool :=
  containsSub pat.toList (jsToLower text).toList

/-- Match of `/\bWORD\b/i` at one decomposition point. -/
def bareWordAt (w : List Char) (pre suf : List Char) : Bool :=
  (match pre.getLast? with
   | none => true
   | some c => !wordChar c) &&
  startsWithCI w suf && boundaryAfter (suf.drop w.length)

/-- Test of `/\bWORD\b/i` over a whole text. -/
def hasBareWordCI (w text : String) : Bool :=
  (splitsOf text.toList).any (fun pr => bareWordAt w.toList pr.1 pr.2)

/-- The sources' `parseDecisionFromOutput`. -/
def parseDecisionFromOutput (text : String) : WorkflowDecision :=
  match findDecisionTag text with
  | some d => d
  | none =>
    if containsCI "[ask]" text || hasBareWordCI "ask" text then .ask
    else if containsCI "[fix]" text || containsCI "[fail]" text ||
        hasBareWordCI "fix" text then .fix
    else .pass

/-! ## Template rendering (`command-runner.ts`, `renderTemplate`) -/

/-- Opening and closing brace characters of the template syntax. -/
def lbrace : Char := Char.ofNat 123

/-- Closing brace character. -/
def rbrace : Char := Char.ofNat 125

/-- Render context of the orchestrator's prompt templates. -/
structure RenderContext where
  request : String
  workflowName : String
  phaseId : String
  role : Option String := none
  iteration : Nat
  outputs : List (String × String)
  latestOutput : String

/-- Characters allowed in a template key (`[a-zA-Z0-9_.-]`). -/
def templateKeyChar (c : Char) : Bool :=
  c.isAlphanum || c = '_' || c = '.' || c = '-'

/-- Middle of a `phase.X.output` key, per `/^phase\.([a-zA-Z0-9_-]+)\.output$/`. -/
def phaseOutputKeyMid (key : String) : Option String :=
  let cs := key.toList
  if startsWithStr "phase." key && endsWithStr ".output" key && decide (cs.length ≥ 14) then
    let mid := (cs.drop 6).take (cs.length - 13)
    if mid ≠ [] ∧ mid.all (fun c => c.isAlphanum || c = '_' || c = '-') then some ⟨mid⟩
    else none
  else none

/-- The sources' `resolveTemplateKey`. -/
def resolveTemplateKey (key : String) (ctx : RenderContext) : Option String :=
  if key = "request" then some ctx.request
  else if key = "workflow.name" then some ctx.workflowName
  else if key = "phase.id" then some ctx.phaseId
  else if key = "phase.role" then ctx.role
  else if key = "iteration" then some (natDecimal ctx.iteration)
  else if key = "latest_output" then some ctx.latestOutput
  else
    match phaseOutputKeyMid key with
    | some mid => lookupAssoc ctx.outputs mid
    | none => none

/-- Match of the template placeholder pattern at one position; returns the key
and the remainder after the closing braces. -/
def templateMatchAt (cs : List Char) : Option (String × List Char) :=
  if startsWithL [lbrace, lbrace] cs then
    let r1 := (cs.drop 2).dropWhile jsWhitespaceChar
    let key := r1.takeWhile templateKeyChar
    if key = [] then none
    else
      let r2 := (r1.drop key.length).dropWhile jsWhitespaceChar
      if startsWithL [rbrace, rbrace] r2 then some (⟨key⟩, r2.drop 2) else none
  else none

/-- Fuel-driven global template replacement. -/
def renderTemplateAux (ctx : RenderContext) : Nat → List Char → List Char
  | 0, cs => cs
  | fuel + 1, cs =>
    match templateMatchAt cs with
    | some (key, rest) =>
      ((resolveTemplateKey key ctx).getD "").toList ++ renderTemplateAux ctx fuel rest
    | none =>
      match cs with
      | [] => []
      | c :: rest => c :: renderTemplateAux ctx fuel rest

/-- The sources' `renderTemplate`. -/
def renderTemplate (template : String) (ctx : RenderContext) : String :=
  ⟨renderTemplateAux ctx template.toList.length template.toList⟩

/-! ## Orchestrator helper functions (`command-runner.ts`) -/

/-- Roles routed through Patch-First (`PATCH_FIRST_ROLES`). -/
def isPatchFirstRole (role : String) : Bool :=
  let r := jsToLower (jsTrim role)
  r = "developer" || r = "fixer"

/-- The sources' `isManagerRole`. -/
def isManagerRole (role : String) : Bool := jsToLower (jsTrim role) = "manager"

/-- The sources' `isPlanPhase`. -/
def isPlanPhase (phase : LlmWorkflowPhase) : Bool :=
  jsToLower (jsTrim phase.id) = "plan" && jsToLower (jsTrim phase.role) = "planner"

/-- The sources' `resolveProviderFromRole`. -/
def resolveProviderFromRole (roleProviderMap : Option (List (String × String)))
    (role : String) : Option String :=
  match roleProviderMap with
  | none => none
  | some m => (lookupAssoc m (jsToLower (jsTrim role))).map jsTrim

/-- The sources' `findPhaseIdByRole` (the role argument is compared against
trimmed, lower-cased phase roles). -/
def findPhaseIdByRole (phases : List WorkflowPhase) (role : String) : Option String :=
  match phases with
  | [] => none
  | .approval _ :: rest => findPhaseIdByRole rest role
  | .llm p :: rest =>
    if jsToLower (jsTrim p.role) = role then some p.id else findPhaseIdByRole rest role

/-- The sources' `resolveNextPhaseId`. -/
def resolveNextPhaseId (phase : LlmWorkflowPhase) (outputText : String) : Option String :=
  if phase.decisionSource = some "output_tag" then
    match parseDecisionFromOutput outputText with
    | .pass => jsCoalesce phase.nextOnPass phase.next
    | .fix => jsCoalesce phase.nextOnFix phase.next
    | .ask => jsCoalesce phase.nextOnAsk phase.next
  else phase.next

/-- The sources' `normalizeAutoFixRetryCount`. -/
def normalizeAutoFixRetryCount (value : Option Int) : Except String Int :=
  match value with
  | none => .ok 2
  | some v =>
    if v < 0 ∨ v > 10 then .error s!"maxAutoFixRetries는 0에서 10 사이의 정수여야 합니다: {v}"
    else .ok v

/-- The sources' `formatIteration` (`iter-` plus the iteration padded to 4). -/
def formatIteration (iteration : Nat) : String :=
  let s := natDecimal iteration
  "iter-" ++ (⟨List.replicate (4 - s.length) '0'⟩ : String) ++ s

/-- Allowed characters of an artifact suffix (`[a-z0-9_-]`). -/
def allowedSuffixChar (c : Char) : Bool :=
  ('a' ≤ c && c ≤ 'z') || c.isDigit || c = '_' || c = '-'

/-- Collapse runs of disallowed characters to a single dash. -/
def collapseDisallowed : List Char → Bool → List Char
  | [], _ => []
  | c :: rest, prevBad =>
    if allowedSuffixChar c then c :: collapseDisallowed rest false
    else if prevBad then collapseDisallowed rest true
    else '-' :: collapseDisallowed rest true

/-- The sources' `normalizeArtifactSuffix`. -/
def normalizeArtifactSuffix (value : String) : String :=
  let normalized : String := ⟨collapseDisallowed (jsToLower (jsTrim value)).toList false⟩
  if normalized = "" then "command" else normalized

/-- The sources' `truncateForFeedback` (320-unit cutoff). -/
def truncateForFeedback (value : String) : String :=
  let trimmed := jsTrim value
  if trimmed = "" then "(empty)"
  else if trimmed.toList.length ≤ 320 then trimmed
  else (⟨trimmed.toList.take 320⟩ : String) ++ "...[truncated]"

/-- One failed-check block of `createAutoFixFeedback`. -/
def checkFailureLine (r : CommandExecutionResult) : String :=
  let cid := r.commandId
  let ec := exitCodeLabel r.exitCode
  let tod := if r.timedOut then "yes" else "no"
  let se := truncateForFeedback r.stderr
  s!"- {cid}\n  exitCode: {ec}\n  timedOut: {tod}\n  stderr: {se}"

/-- The sources' `createAutoFixFeedback`. -/
def createAutoFixFeedback (checkResults : List CommandExecutionResult) (retryCount : Int)
    (evaluatePhaseId : Option String) : String :=
  let failedResults := checkResults.filter (fun r => r.timedOut || r.exitCode ≠ some 0)
  let targetPhaseLabel :=
    match evaluatePhaseId with
    | some e => if e ≠ "" then s!"phase.{e}.output" else "평가 phase"
    | none => "평가 phase"
  let rc := intDecimal retryCount
  String.intercalate "\n"
    ([s!"[AUTO_FIX] 검증 실패로 fix 재시도({rc}회)", s!"{targetPhaseLabel}에 사용할 실패 요약"] ++
      failedResults.map checkFailureLine)

/-- The sources' `formatCheckResult`. -/
def formatCheckResult (result : CommandExecutionResult) : String :=
  let cid := result.commandId
  let cmd := String.intercalate " " result.command
  let ec := exitCodeLabel result.exitCode
  let tod := if result.timedOut then "yes" else "no"
  let dm := intDecimal result.durationMs
  String.intercalate "\n"
    [s!"command_id: {cid}", s!"command: {cmd}", s!"exit_code: {ec}", s!"timed_out: {tod}",
     s!"duration_ms: {dm}", "", "[stdout]", result.stdout, "", "[stderr]", result.stderr]

/-- The sources' `createGatekeeperPrompt`. -/
def createGatekeeperPrompt (risk : ChangeRiskDecision) : String :=
  let reasonText := String.intercalate "\n" (risk.reasons.map (fun r => "- " ++ r))
  let fc := natDecimal risk.changedFileCount
  let lc := intDecimal risk.totalChangedLines
  String.intercalate "\n"
    ["[Gatekeeper] 위험 변경이 감지되었습니다.", s!"변경 파일 수: {fc}", s!"변경 라인 수: {lc}",
     "사유:", if reasonText ≠ "" then reasonText else "- 없음", "계속 진행할까요?"]

/-- Stand-in for `JSON.stringify(risk, null, 2)`; the artifact content is never
inspected by the engine. -/
def riskJson (risk : ChangeRiskDecision) : String :=
  "requiresApproval: " ++ (if risk.requiresApproval then "true" else "false") ++
  "\nreasons: " ++ String.intercalate ", " risk.reasons ++
  "\ndeletedFiles: " ++ String.intercalate ", " risk.deletedFiles ++
  "\nsecuritySensitiveFiles: " ++ String.intercalate ", " risk.securitySensitiveFiles ++
  "\nchangedFileCount: " ++ natDecimal risk.changedFileCount ++
  "\ntotalChangedLines: " ++ intDecimal risk.totalChangedLines

/-- Multiline anchored pattern test for the manager headers: `hashes` leading
`#` characters, optional whitespace, a case-insensitive literal, then a word
boundary (`/^#\s*USER_UPDATE\b/im` and friends). -/
def managerPatternTest (hashes : Nat) (lit : String) (s : String) : Bool :=
  (multilineTails s).any (fun t =>
    startsWithL (List.replicate hashes '#') t &&
    (let r := (t.drop hashes).dropWhile jsWhitespaceChar
     startsWithCI lit.toList r && boundaryAfter (r.drop lit.toList.length)))

/-- The sources' `isManagerUserUpdateFormat`. -/
def isManagerUserUpdateFormat (outputText : String) : Bool :=
  managerPatternTest 1 "user_update" outputText &&
  managerPatternTest 2 "tl;dr" outputText &&
  managerPatternTest 2 "what changed" outputText &&
  managerPatternTest 2 "risks" outputText &&
  managerPatternTest 2 "actions needed" outputText &&
  managerPatternTest 2 "next" outputText

/-- The sources' `formatManagerUserUpdate`. -/
def formatManagerUserUpdate (outputText : String) : String :=
  let normalized := jsTrim outputText
  if isManagerUserUpdateFormat normalized then normalized
  else
    let fallback := if normalized ≠ "" then normalized else "요청된 작업에 대한 사용자 안내입니다."
    let tldr := (((jsSplitLines fallback).map jsTrim).find? (fun l => l ≠ "")).getD "요약 없음"
    String.intercalate "\n"
      ["# USER_UPDATE", "## TL;DR", tldr, "", "## What changed", fallback, "", "## Risks",
       "- 특이한 리스크 없음", "", "## Actions needed (Y/n 또는 선택지)", "- Y", "", "## Next",
       "- 다음 단계 진행"]

/-! ## Orchestrator (`command-runner.ts`, `Orchestrator.run`)

The orchestrator's effects (provider calls, the approval handler, git
invocations, allowlisted check commands, system-prompt file reads and the
clock) are abstracted by a deterministic environment; all state mutations,
persists, artifact writes and control flow are embedded from the source.
Run-logger appends only write log files and are elided. -/

/-- Gatekeeper construction options (defaults from `gatekeeper.ts`). -/
structure GatekeeperConfig where
  diffNameStatusCommandId : String := "git-diff-name-status"
  diffNumstatCommandId : String := "git-diff-numstat"
  largeChangeFileThreshold : Int := 20
  largeChangeLineThreshold : Int := 500
  securityPathTest : String → Bool := defaultSecurityPathTest

/-- Deterministic environment of one orchestrator run. -/
structure OrchestratorEnv where
  approve : String → Nat → Bool
  providerResolves : String → Bool
  providerRun : String → String → String → Nat → Except String String
  systemPromptFileContent : String → Except String String
  commandResult : Nat → String → CommandExecutionResult
  gitApply : Nat → GitCommandResult
  gitDiffStat : Nat → GitCommandResult
  gitDiff : Nat → GitCommandResult

/-- Orchestrator construction options. -/
structure OrchestratorConfig where
  gatekeeper : Option GatekeeperConfig := none
  checkCommandIds : List String := []
  maxAutoFixRetries : Int := 2

/-- Per-run input of `Orchestrator.run`. -/
structure OrchestratorRunInput where
  request : String
  defaultProviderId : Option String := none
  roleProviderMap : Option (List (String × String)) := none

/-- Mutable context of one run: in-memory state, the on-disk snapshot, every
persisted snapshot in order, the artifact filesystem and index, the returned
artifact records, executed phases, the outputs map, the latest output and the
clock tick. -/
structure LoopState where
  state : RunState
  disk : Option RunState
  persisted : List RunState
  fs : List (String × String)
  index : List ArtifactRecord
  artifacts : List ArtifactRecord
  executed : List String
  outputs : List (String × String)
  latestOutput : String
  tick : Nat
deriving Repr, DecidableEq

/-- Result of an effectful step: updated context plus outcome; a thrown JS
error is `Except.error` with the context at throw time preserved. -/
abbrev StepRes (α : Type) := LoopState × Except String α

/-- Sequencing of effectful steps (errors propagate, context flows through). -/
def seqE {α β : Type} (r : StepRes α) (f : α → LoopState → StepRes β) : StepRes β :=
  match r with
  | (ls, .error e) => (ls, .error e)
  | (ls, .ok a) => f a ls

/-- One `new Date().toISOString()` observation: the tick rendered in decimal. -/
def orcNow (ls : LoopState) : String × LoopState :=
  (natDecimal ls.tick, { ls with tick := ls.tick + 1 })

/-- The sources' `persistState`: stamp `updatedAt`, then `StateStore.save`
(normalize without touching `updatedAt`, write atomically). -/
def orcPersist (ls : LoopState) : StepRes Unit :=
  let (t, ls) := orcNow ls
  let st := { ls.state with updatedAt := t }
  match normalizeRunState false none t st with
  | .error e => ({ ls with state := st }, .error e)
  | .ok ns =>
    ({ ls with state := st, disk := some ns, persisted := ls.persisted ++ [ns] }, .ok ())

/-- `ArtifactStore.write` within the run context. -/
def orcWriteArtifact (phase name content : String) (ls : LoopState) : StepRes ArtifactRecord :=
  let (t, ls) := orcNow ls
  match artifactStoreWrite ls.fs ls.index phase name content t with
  | .error e => (ls, .error e)
  | .ok (fs2, idx2, record) => ({ ls with fs := fs2, index := idx2 }, .ok record)

/-- Modify the first phase entry with the given id. -/
def modifyPhaseState (phases : List RunStatePhase) (phaseId : String)
    (f : RunStatePhase → RunStatePhase) : List RunStatePhase :=
  match phases with
  | [] => []
  | p :: rest => if p.id = phaseId then f p :: rest else p :: modifyPhaseState rest phaseId f

/-- Does the run state hold an entry for the phase (`findPhaseState` succeeds)? -/
def phasePresent (state : RunState) (phaseId : String) : Bool :=
  state.phases.any (fun p => p.id = phaseId)

/-- The sources' `markPhaseRunning`. -/
def orcMarkPhaseRunning (phaseId : String) (ls : LoopState) : LoopState :=
  let (t, ls) := orcNow ls
  let upd := fun (p : RunStatePhase) =>
    { p with
      status := "running"
      startedAt := some (p.startedAt.getD t)
      updatedAt := some t
      error := none }
  let phases := modifyPhaseState ls.state.phases phaseId upd
  { ls with state := { ls.state with phases := phases } }

/-- The sources' `markPhaseCompleted`. -/
def orcMarkPhaseCompleted (phaseId : String) (ls : LoopState) : LoopState :=
  let (t, ls) := orcNow ls
  let upd := fun (p : RunStatePhase) =>
    { p with status := "completed", updatedAt := some t, error := none }
  let phases := modifyPhaseState ls.state.phases phaseId upd
  { ls with state := { ls.state with phases := phases } }

/-- The sources' `markPhaseFailed`. -/
def orcMarkPhaseFailed (phaseId errorMessage : String) (ls : LoopState) : LoopState :=
  let (t, ls) := orcNow ls
  let upd := fun (p : RunStatePhase) =>
    { p with status := "failed", updatedAt := some t, error := some errorMessage }
  let phases := modifyPhaseState ls.state.phases phaseId upd
  { ls with state := { ls.state with phases := phases } }

/-- The sources' `addArtifactToState`: the artifacts map is extended first;
a missing phase entry then throws (after the map mutation). -/
def orcAddArtifactToState (phaseId relativePath : String) (ls : LoopState) : StepRes Unit :=
  let current := (lookupAssoc ls.state.artifacts phaseId).getD []
  let arts := assocSet ls.state.artifacts phaseId (current ++ [relativePath])
  let ls := { ls with state := { ls.state with artifacts := arts } }
  if phasePresent ls.state phaseId then
    let upd := fun (p : RunStatePhase) =>
      { p with artifacts := some ((p.artifacts.getD []) ++ [relativePath]) }
    let phases := modifyPhaseState ls.state.phases phaseId upd
    ({ ls with state := { ls.state with phases := phases } }, .ok ())
  else (ls, .error s!"state.phases에 phase가 없습니다: {phaseId}")

/-- Append to the returned artifact-record list. -/
def orcPushArtifact (r : ArtifactRecord) (ls : LoopState) : LoopState :=
  { ls with artifacts := ls.artifacts ++ [r] }

/-- `outputs.set(phaseId, text)`. -/
def orcSetOutput (phaseId text : String) (ls : LoopState) : LoopState :=
  { ls with outputs := assocSet ls.outputs phaseId text }

/-- Assignment of the `latestOutput` variable. -/
def orcSetLatest (text : String) (ls : LoopState) : LoopState :=
  { ls with latestOutput := text }

/-- `executedPhases.push(phase.id)`. -/
def orcPushExecuted (phaseId : String) (ls : LoopState) : LoopState :=
  { ls with executed := ls.executed ++ [phaseId] }

/-- Simultaneous assignment of `state.status` and `state.current_phase`. -/
def orcSetStatusCurrent (status : String) (current : Option String) (ls : LoopState) :
    LoopState :=
  { ls with state := { ls.state with status := status, current_phase := current } }

/-- Push records into the returned list and the run state, in order. -/
def pushRecordsToState (phaseId : String) : List ArtifactRecord → LoopState → StepRes Unit
  | [], ls => (ls, .ok ())
  | r :: rest, ls =>
    let ls := orcPushArtifact r ls
    seqE (orcAddArtifactToState phaseId r.relativePath ls) fun _ ls =>
    pushRecordsToState phaseId rest ls

/-- The sources' `processPlannerPhaseArtifacts`. -/
def processPlannerPhaseArtifacts (phase : LlmWorkflowPhase) (iter : Nat)
    (outputText : String) (ls : LoopState) : StepRes (List ArtifactRecord) :=
  if ¬isPlanPhase phase then (ls, .ok [])
  else
    let content := if endsWithStr "\n" outputText then outputText else outputText ++ "\n"
    seqE (orcWriteArtifact phase.id (formatIteration iter ++ ".plan.md") content ls)
      fun rec ls => (ls, .ok [rec])

/-- Thrown-error marker of a `PatchExtractionError` (Korean text elided). -/
def patchExtractionMessage : PatchExtractionReason → String
  | .not_found => "PatchExtractionError: not_found"
  | .invalid_format => "PatchExtractionError: invalid_format"
  | .path_violation => "PatchExtractionError: path_violation"

/-- Thrown-error marker of a `PatchApplyError` (Korean text elided). -/
def patchApplyMessage : PatchApplyReason → String
  | .context_mismatch => "PatchApplyError: context_mismatch"
  | .invalid_patch => "PatchApplyError: invalid_patch"
  | .not_git_repository => "PatchApplyError: not_git_repository"
  | .path_violation => "PatchApplyError: path_violation"
  | .timeout => "PatchApplyError: timeout"
  | .unknown => "PatchApplyError: unknown"

/-- The sources' `processPatchFirstPhase`: extract, persist the patch, apply,
capture the working-tree diff, persist the diff artifacts; any failure is a
thrown error. -/
def processPatchFirstPhase (env : OrchestratorEnv) (phase : LlmWorkflowPhase) (iter : Nat)
    (outputText : String) (ls : LoopState) : StepRes (List ArtifactRecord) :=
  if ¬isPatchFirstRole phase.role then (ls, .ok [])
  else
    match extractPatchFromText outputText with
    | .error r => (ls, .error (patchExtractionMessage r))
    | .ok extractedPatch =>
      seqE (orcWriteArtifact phase.id (formatIteration iter ++ ".patch")
          extractedPatch.patch ls) fun patchRecord ls =>
      match applyPatchToWorkspace extractedPatch.patch (env.gitApply iter) with
      | .extractionError r => (ls, .error (patchExtractionMessage r))
      | .applyError r => (ls, .error (patchApplyMessage r))
      | .applied _ _ =>
        match captureWorkingTreeDiff (env.gitDiffStat iter) (env.gitDiff iter) with
        | .error r => (ls, .error (patchApplyMessage r))
        | .ok captured =>
          seqE (orcWriteArtifact phase.id (formatIteration iter ++ ".diffstat.txt")
              captured.1 ls) fun diffStatRecord ls =>
          seqE (orcWriteArtifact phase.id (formatIteration iter ++ ".diff.txt")
              captured.2 ls) fun diffRecord ls =>
          (ls, .ok [patchRecord, diffStatRecord, diffRecord])

/-- Result of `handleGatekeeperAfterPatch`. -/
structure GkOutcome where
  records : List ArtifactRecord
  cancelRun : Bool
  nextPhaseId : Option String := none
  evaluatorFeedback : Option String := none
deriving Repr, DecidableEq

/-- Check artifacts of the gatekeeper verification loop, in order. -/
def writeCheckRecords (phaseId : String) (iter : Nat) :
    List CommandExecutionResult → LoopState → StepRes (List ArtifactRecord)
  | [], ls => (ls, .ok [])
  | r :: rest, ls =>
    seqE (orcWriteArtifact phaseId
        (formatIteration iter ++ ".check-" ++ normalizeArtifactSuffix r.commandId ++ ".txt")
        (formatCheckResult r) ls) fun rec ls =>
    seqE (writeCheckRecords phaseId iter rest ls) fun recs ls =>
    (ls, .ok (rec :: recs))

/-- Decision tail of the gatekeeper verification: decide over the check
results and on `auto_fix` increment `retries`, persist, and redirect to the
fixer phase (falling back to the current phase). -/
def gkAfterChecks (checkResults : List CommandExecutionResult) (maxAutoFixRetries : Int)
    (phase : LlmWorkflowPhase) (fixPhaseId evaluatePhaseId : Option String)
    (records checkRecords : List ArtifactRecord) (ls : LoopState) : StepRes GkOutcome :=
  let checkDecision := decideCheckFailure checkResults ls.state.retries maxAutoFixRetries
  match checkDecision.action with
  | .pass => (ls, .ok { records := records ++ checkRecords, cancelRun := false })
  | .auto_fix =>
    let ls := { ls with state := { ls.state with retries := ls.state.retries + 1 } }
    seqE (orcPersist ls) fun _ ls =>
    (ls, .ok
      { records := records ++ checkRecords
        cancelRun := false
        nextPhaseId := some (fixPhaseId.getD phase.id)
        evaluatorFeedback :=
          some (createAutoFixFeedback checkResults ls.state.retries evaluatePhaseId) })
  | .fail => (ls, .error checkDecision.message)

/-- Verification part of `handleGatekeeperAfterPatch`: run the check commands,
persist check artifacts, then decide via `gkAfterChecks`. -/
def gkChecksPart (env : OrchestratorEnv) (checkCommandIds : List String)
    (maxAutoFixRetries : Int) (phase : LlmWorkflowPhase) (iter : Nat)
    (fixPhaseId evaluatePhaseId : Option String) (records : List ArtifactRecord)
    (ls : LoopState) : StepRes GkOutcome :=
  if checkCommandIds.length = 0 then (ls, .ok { records := records, cancelRun := false })
  else
    let checkResults := checkCommandIds.map (env.commandResult iter)
    seqE (writeCheckRecords phase.id iter checkResults ls) fun checkRecords ls =>
    gkAfterChecks checkResults maxAutoFixRetries phase fixPhaseId evaluatePhaseId records
      checkRecords ls

/-- The sources' `handleGatekeeperAfterPatch`. -/
def handleGatekeeperAfterPatch (env : OrchestratorEnv) (gk : GatekeeperConfig)
    (checkCommandIds : List String) (maxAutoFixRetries : Int) (phase : LlmWorkflowPhase)
    (iter : Nat) (fixPhaseId evaluatePhaseId : Option String) (ls : LoopState) :
    StepRes GkOutcome :=
  let nsRes := env.commandResult iter gk.diffNameStatusCommandId
  let numRes := env.commandResult iter gk.diffNumstatCommandId
  let risk := evaluateRiskFromDiffOutputs
    { nameStatusOutput := nsRes.stdout
      numstatOutput := numRes.stdout
      nameStatusResult := some nsRes
      numstatResult := some numRes
      largeChangeFileThreshold := some gk.largeChangeFileThreshold
      largeChangeLineThreshold := some gk.largeChangeLineThreshold
      securityPathTest := some gk.securityPathTest }
  seqE (orcWriteArtifact phase.id (formatIteration iter ++ ".gatekeeper-risk.json")
      (riskJson risk) ls) fun riskRecord ls =>
  if risk.requiresApproval then
    let approvalPrompt := createGatekeeperPrompt risk
    let ls := orcSetStatusCurrent "awaiting_approval" (some phase.id) ls
    seqE (orcPersist ls) fun _ ls =>
    let approved := env.approve phase.id iter
    seqE (orcWriteArtifact phase.id (formatIteration iter ++ ".gatekeeper-approval.txt")
        ("[gatekeeper] prompt: " ++ approvalPrompt ++ "\n[gatekeeper] approved: " ++
          (if approved then "yes" else "no")) ls) fun approvalRecord ls =>
    if ¬approved then
      (ls, .ok { records := [riskRecord, approvalRecord], cancelRun := true })
    else
      let ls := orcSetStatusCurrent "running" (some phase.id) ls
      seqE (orcPersist ls) fun _ ls =>
      gkChecksPart env checkCommandIds maxAutoFixRetries phase iter fixPhaseId
        evaluatePhaseId [riskRecord, approvalRecord] ls
  else
    gkChecksPart env checkCommandIds maxAutoFixRetries phase iter fixPhaseId
      evaluatePhaseId [riskRecord] ls

/-- The sources' `resolveSystemPromptTemplate`; the workspace containment check
and the file read are modelled by the environment's file oracle. -/
def resolveSystemPromptTemplateModel (env : OrchestratorEnv) (phase : LlmWorkflowPhase)
    (fallbackTemplate : String) : Except String String :=
  match phase.systemPromptFile with
  | none => .ok fallbackTemplate
  | some f => if f = "" then .ok fallbackTemplate else env.systemPromptFileContent f

/-- Tail of the LLM-phase branch after post-processing: record outputs, mark
the phase completed, then terminate or select the next phase. -/
def finishLlmStep (phase : LlmWorkflowPhase) (phaseOutputText : String)
    (nextPhaseOverride : Option String) (cancelRequestedByGatekeeper : Bool)
    (ls : LoopState) : StepRes (Option String) :=
  let ls := orcSetLatest phaseOutputText (orcSetOutput phase.id phaseOutputText ls)
  let ls := orcMarkPhaseCompleted phase.id ls
  let ls := orcPushExecuted phase.id ls
  if cancelRequestedByGatekeeper then
    let ls := orcSetStatusCurrent "canceled" none ls
    seqE (orcPersist ls) fun _ ls => (ls, .ok none)
  else
    match phase.terminalStatus with
    | some ts =>
      let ls := orcSetStatusCurrent ts none ls
      seqE (orcPersist ls) fun _ ls => (ls, .ok none)
    | none =>
      let nextPhaseId := jsCoalesce nextPhaseOverride (resolveNextPhaseId phase phaseOutputText)
      if isFalsyOpt nextPhaseId then
        let ls := orcSetStatusCurrent "completed" none ls
        seqE (orcPersist ls) fun _ ls => (ls, .ok none)
      else
        let ls := orcSetStatusCurrent "running" nextPhaseId ls
        seqE (orcPersist ls) fun _ ls => (ls, .ok nextPhaseId)

/-- Gatekeeper feedback application within the LLM branch. -/
def applyGkFeedback (outputText : String) (evaluatePhaseId : Option String)
    (gkOutcome : GkOutcome) (ls : LoopState) : String × LoopState :=
  match gkOutcome.evaluatorFeedback with
  | some fb =>
    if fb ≠ "" then
      let ls :=
        match evaluatePhaseId with
        | some e => if e ≠ "" then orcSetOutput e fb ls else ls
        | none => ls
      (outputText ++ "\n\n" ++ fb, orcSetLatest fb ls)
    else (outputText, ls)
  | none => (outputText, ls)

/-- LLM-phase branch of the orchestrator loop. -/
def llmStep (env : OrchestratorEnv) (cfg : OrchestratorConfig) (wf : WorkflowDefinition)
    (input : OrchestratorRunInput) (fixPhaseId evaluatePhaseId : Option String)
    (phase : LlmWorkflowPhase) (iter : Nat) (ls : LoopState) : StepRes (Option String) :=
  let providerId := jsOrString (phase.provider.map jsTrim)
    (jsOrString (resolveProviderFromRole input.roleProviderMap phase.role)
      (input.defaultProviderId.map jsTrim))
  if isFalsyOpt providerId then
    let pid := phase.id
    (ls, .error s!"phase({pid})의 provider를 결정할 수 없습니다.")
  else
    let providerIdS := providerId.getD ""
    if ¬env.providerResolves providerIdS then
      (ls, .error s!"provider를 찾을 수 없습니다: {providerIdS}")
    else
      let ctx : RenderContext :=
        { request := input.request, workflowName := wf.name, phaseId := phase.id
          role := some phase.role, iteration := iter, outputs := ls.outputs
          latestOutput := ls.latestOutput }
      let roleName := phase.role
      let fallbackTemplate := phase.systemPromptTemplate.getD s!"당신은 {roleName} 역할로 동작한다."
      match resolveSystemPromptTemplateModel env phase fallbackTemplate with
      | .error e => (ls, .error e)
      | .ok systemPromptTemplate =>
        let systemPrompt := renderTemplate systemPromptTemplate ctx
        let userPrompt := renderTemplate phase.promptTemplate ctx
        match env.providerRun providerIdS systemPrompt userPrompt iter with
        | .error e => (ls, .error e)
        | .ok outputText =>
          seqE (orcWriteArtifact phase.id (formatIteration iter ++ ".raw.txt") outputText ls)
            fun rawRecord ls =>
          let ls := orcPushArtifact rawRecord ls
          seqE (orcAddArtifactToState phase.id rawRecord.relativePath ls) fun _ ls =>
          if isManagerRole phase.role then
            let managerUpdate := formatManagerUserUpdate outputText
            seqE (orcWriteArtifact phase.id (formatIteration iter ++ ".manager-update.md")
                managerUpdate ls) fun managerRecord ls =>
            let ls := orcPushArtifact managerRecord ls
            seqE (orcAddArtifactToState phase.id managerRecord.relativePath ls) fun _ ls =>
            finishLlmStep phase managerUpdate none false ls
          else
            seqE (processPlannerPhaseArtifacts phase iter outputText ls)
              fun plannerArtifacts ls =>
            seqE (pushRecordsToState phase.id plannerArtifacts ls) fun _ ls =>
            seqE (processPatchFirstPhase env phase iter outputText ls)
              fun patchArtifacts ls =>
            seqE (pushRecordsToState phase.id patchArtifacts ls) fun _ ls =>
            match cfg.gatekeeper with
            | some gk =>
              if isPatchFirstRole phase.role then
                seqE (handleGatekeeperAfterPatch env gk cfg.checkCommandIds
                    cfg.maxAutoFixRetries phase iter fixPhaseId evaluatePhaseId ls)
                  fun gkOutcome ls =>
                seqE (pushRecordsToState phase.id gkOutcome.records ls) fun _ ls =>
                let fed := applyGkFeedback outputText evaluatePhaseId gkOutcome ls
                finishLlmStep phase fed.1 gkOutcome.nextPhaseId gkOutcome.cancelRun fed.2
              else finishLlmStep phase outputText none false ls
            | none => finishLlmStep phase outputText none false ls

/-- Approval-phase branch of the orchestrator loop. -/
def approvalStep (env : OrchestratorEnv) (wf : WorkflowDefinition) (request : String)
    (phase : ApprovalWorkflowPhase) (iter : Nat) (ls : LoopState) : StepRes (Option String) :=
  let ctx : RenderContext :=
    { request := request, workflowName := wf.name, phaseId := phase.id, iteration := iter
      outputs := ls.outputs, latestOutput := ls.latestOutput }
  let prompt := renderTemplate phase.promptTemplate ctx
  let approved := env.approve phase.id iter
  seqE (orcWriteArtifact phase.id (formatIteration iter ++ ".approval.txt")
      ("prompt: " ++ prompt ++ "\napproved: " ++ (if approved then "yes" else "no")) ls)
    fun approvalRecord ls =>
  let ls := orcPushArtifact approvalRecord ls
  seqE (orcAddArtifactToState phase.id approvalRecord.relativePath ls) fun _ ls =>
  let approvalText := if approved then "APPROVED" else "REJECTED"
  let ls := orcSetLatest approvalText (orcSetOutput phase.id approvalText ls)
  let ls := orcMarkPhaseCompleted phase.id ls
  let ls := orcPushExecuted phase.id ls
  match phase.terminalStatus with
  | some ts =>
    let ls := orcSetStatusCurrent ts none ls
    seqE (orcPersist ls) fun _ ls => (ls, .ok none)
  | none =>
    let nextPhaseId := if approved then phase.nextOnApprove else phase.nextOnReject
    if isFalsyOpt nextPhaseId then
      let ls := orcSetStatusCurrent (if approved then "completed" else "canceled") none ls
      seqE (orcPersist ls) fun _ ls => (ls, .ok none)
    else
      let ls := orcSetStatusCurrent "running" nextPhaseId ls
      seqE (orcPersist ls) fun _ ls => (ls, .ok nextPhaseId)

/-- Phase lookup of the orchestrator (`new Map` keeps the last entry per id). -/
def phaseMapGet (phases : List WorkflowPhase) (pid : String) : Option WorkflowPhase :=
  phases.reverse.find? (fun p => wfPhaseId p = pid)

/-- The orchestrator's phase loop.  The result value is the final value of the
`currentPhaseId` loop variable: `none` when the loop condition failed, the
current id when a `break` ended the loop.  The fuel bounds the number of loop
entries; `maxSteps + 1` entries always suffice. -/
def runLoop (env : OrchestratorEnv) (cfg : OrchestratorConfig) (wf : WorkflowDefinition)
    (input : OrchestratorRunInput) (fixPhaseId evaluatePhaseId : Option String) :
    Nat → Option String → Nat → LoopState → StepRes (Option String)
  | 0, currentPhaseId, _, ls => (ls, .ok currentPhaseId)
  | _ + 1, none, _, ls => (ls, .ok none)
  | fuel + 1, some cpid, iteration, ls =>
    if iteration ≥ wf.maxSteps then
      let ls := orcSetStatusCurrent "failed" (some cpid) ls
      seqE (orcPersist ls) fun _ ls => (ls, .ok (some cpid))
    else
      match phaseMapGet wf.phases cpid with
      | none => (ls, .error s!"phase를 찾을 수 없습니다: {cpid}")
      | some phase =>
        let iter := iteration + 1
        if ¬phasePresent ls.state (wfPhaseId phase) then
          let pid := wfPhaseId phase
          (ls, .error s!"state.phases에 phase가 없습니다: {pid}")
        else
          let ls := orcMarkPhaseRunning (wfPhaseId phase) ls
          let ls := orcSetStatusCurrent
            (match phase with
             | .approval _ => "awaiting_approval"
             | .llm _ => "running") (some (wfPhaseId phase)) ls
          seqE (orcPersist ls) fun _ ls =>
          match (match phase with
                 | .approval p => approvalStep env wf input.request p iter ls
                 | .llm p => llmStep env cfg wf input fixPhaseId evaluatePhaseId p iter ls) with
          | (ls, .ok next) =>
            runLoop env cfg wf input fixPhaseId evaluatePhaseId fuel next iter ls
          | (ls, .error e) =>
            let ls := orcMarkPhaseFailed (wfPhaseId phase) e ls
            let ls := orcSetStatusCurrent "failed" (some (wfPhaseId phase)) ls
            seqE (orcPersist ls) fun _ ls => (ls, .ok (some cpid))

/-- The run result of `Orchestrator.run`. -/
structure OrchestratorRunResult where
  workflowName : String
  state : RunState
  executedPhases : List String
  artifacts : List ArtifactRecord
deriving Repr, DecidableEq

/-- Empty run context before `Orchestrator.run` starts. -/
def initialLoopState : LoopState :=
  { state := { status := "", current_phase := none, phases := [], retries := 0,
               startedAt := "", updatedAt := "", artifacts := [] }
    disk := none, persisted := [], fs := [], index := [], artifacts := [], executed := []
    outputs := [], latestOutput := "", tick := 0 }

/-- The sources' `Orchestrator.run` over an already-parsed workflow. -/
def orchestratorRun (env : OrchestratorEnv) (cfg : OrchestratorConfig)
    (wf : WorkflowDefinition) (input : OrchestratorRunInput) (fuel : Nat) :
    StepRes OrchestratorRunResult :=
  let fixPhaseId := findPhaseIdByRole wf.phases "fixer"
  let evaluatePhaseId := findPhaseIdByRole wf.phases "evaluator"
  let ls := initialLoopState
  let nowLs := orcNow ls
  match createInitialRunState (some "running") (some (some wf.entryPhase))
      (some (wf.phases.map (fun p => { id := wfPhaseId p, status := "pending" })))
      none none none (some []) nowLs.1 with
  | .error e => (nowLs.2, .error e)
  | .ok st =>
    let ls := { nowLs.2 with state := st }
    seqE (orcPersist ls) fun _ ls =>
    seqE (runLoop env cfg wf input fixPhaseId evaluatePhaseId fuel (some wf.entryPhase) 0 ls)
      fun finalCur ls =>
    match finalCur with
    | none =>
      if ls.state.status = "running" then
        let ls := orcSetStatusCurrent "completed" none ls
        seqE (orcPersist ls) fun _ ls =>
        (ls, .ok { workflowName := wf.name, state := ls.state,
                   executedPhases := ls.executed, artifacts := ls.artifacts })
      else
        (ls, .ok { workflowName := wf.name, state := ls.state,
                   executedPhases := ls.executed, artifacts := ls.artifacts })
    | some _ =>
      (ls, .ok { workflowName := wf.name, state := ls.state,
                 executedPhases := ls.executed, artifacts := ls.artifacts })

/-! ## Claim-support definitions -/

/-- Unsafe path candidate, mirroring `assertSafePathSegment`'s rejection set:
empty after unquoting, absolute (POSIX or drive-lettered), or containing a
`..` segment. -/
def unsafePathCandidate (rawPath : String) : Bool :=
  let candidate := (unquotePatchPath rawPath).toList.map (fun c => if c = '\\' then '/' else c)
  candidate = [] || absoluteLikePath candidate ||
    (splitOnChar '/' candidate).any (fun seg => seg = "..".toList)

/-- A `diff --git` header line whose captured a- or b-path is unsafe. -/
def unsafeDiffGitHeaderLine (line : String) : Bool :=
  startsWithStr "diff --git " line &&
  (match matchDiffGitHeader line with
   | some (p1, p2) => unsafePathCandidate p1 || unsafePathCandidate p2
   | none => false)
/-! ## Concrete scenario fixtures and claim-support definitions -/

/-- A concrete failing check result. -/
def c3FailingCheck : CommandExecutionResult :=
  { commandId := "lint"
    command := ["npm", "run", "lint"]
    stdout := ""
    stderr := "error"
    exitCode := some 1
    durationMs := 10
    timedOut := false }

/-- A stub environment whose effects all succeed trivially. -/
def envStub : OrchestratorEnv :=
  { approve := fun _ _ => true
    providerResolves := fun _ => true
    providerRun := fun _ _ _ _ => .ok "ok"
    systemPromptFileContent := fun _ => .ok ""
    commandResult := fun _ cid =>
      { commandId := cid, command := [], stdout := "", stderr := "", exitCode := some 0,
        durationMs := 0, timedOut := false }
    gitApply := fun _ => { stdout := "", stderr := "", exitCode := some 0, timedOut := false }
    gitDiffStat := fun _ => { stdout := "", stderr := "", exitCode := some 0, timedOut := false }
    gitDiff := fun _ => { stdout := "", stderr := "", exitCode := some 0, timedOut := false } }

/-- A concrete developer phase. -/
def phaseDev : LlmWorkflowPhase :=
  { id := "dev", role := "developer", promptTemplate := "do" }

/-- Workflow text omitting both `max_steps` and `entry_phase`. -/
def c10YamlNoDefaults : String :=
  "name: demo\nphases:\n  - id: plan\n    role: planner\n    prompt_template: p\n"

/-- Workflow text with a fractional `max_steps`. -/
def c10YamlFractional : String :=
  "name: demo\nmax_steps: 3.5\nphases:\n  - id: plan\n    role: planner\n    prompt_template: p\n"

/-- Workflow text with a non-positive `max_steps`. -/
def c10YamlZero : String :=
  "name: demo\nmax_steps: 0\nphases:\n  - id: plan\n    role: planner\n    prompt_template: p\n"

/-- A developer output carrying a fenced diff patch. -/
def c9PatchOutput : String :=
  "here is the change\n```diff\ndiff --git a/f.txt b/f.txt\n--- a/f.txt\n+++ b/f.txt\n@@ -1 +1 @@\n+x\n```\n"

/-- Environment of the auto-fix fallback scenario: the provider always emits
the same patch, the check command `test` always fails, git succeeds. -/
def envC9 : OrchestratorEnv :=
  { approve := fun _ _ => true
    providerResolves := fun _ => true
    providerRun := fun _ _ _ _ => .ok c9PatchOutput
    systemPromptFileContent := fun _ => .ok ""
    commandResult := fun _ cid =>
      if cid = "test" then
        { commandId := cid, command := [], stdout := "", stderr := "boom", exitCode := some 1,
          durationMs := 0, timedOut := false }
      else
        { commandId := cid, command := [], stdout := "", stderr := "", exitCode := some 0,
          durationMs := 0, timedOut := false }
    gitApply := fun _ => { stdout := "", stderr := "", exitCode := some 0, timedOut := false }
    gitDiffStat := fun _ => { stdout := "", stderr := "", exitCode := some 0, timedOut := false }
    gitDiff := fun _ => { stdout := "", stderr := "", exitCode := some 0, timedOut := false } }

/-- A single-phase developer workflow with no fixer phase. -/
def wfC9 : WorkflowDefinition :=
  { name := "w", entryPhase := "dev", maxSteps := 10,
    phases := [.llm { id := "dev", role := "developer", promptTemplate := "do" }] }

/-- A mid-run context positioned at the developer phase. -/
def lsC9 : LoopState :=
  { initialLoopState with
      state := { status := "running", current_phase := some "dev",
                 phases := [{ id := "dev", status := "running" }], retries := 0,
                 startedAt := "t", updatedAt := "t", artifacts := [] } }

/-- Outcome of the concrete gatekeeper call of the fallback scenario. -/
def c9Out : GkOutcome :=
  ((handleGatekeeperAfterPatch envC9 {} ["test"] 2 phaseDev 1 none none lsC9).2.toOption).getD
    { records := [], cancelRun := false }

/-- Workflow of the approval rejection scenario: an approval gate routing to a
developer phase only on approval. -/
def wfC8 : WorkflowDefinition :=
  { name := "w", entryPhase := "gate", maxSteps := 10,
    phases := [.approval { id := "gate", promptTemplate := "ok?", nextOnApprove := some "dev" },
               .llm { id := "dev", role := "developer", promptTemplate := "do" }] }

/-- Environment whose approval handler rejects every request. -/
def envC8 : OrchestratorEnv := { envStub with approve := fun _ _ => false }

/-- A mid-run context positioned at the approval gate. -/
def lsC8a : LoopState :=
  { initialLoopState with
      state := { status := "running", current_phase := some "gate",
                 phases := [{ id := "gate", status := "running" }], retries := 0,
                 startedAt := "t", updatedAt := "t", artifacts := [] } }

/-- Result of the concrete approved gate step of the witness scenario. -/
def c8Step : StepRes (Option String) :=
  approvalStep envStub wfC8 "r" { id := "gate", promptTemplate := "ok?" } 1 lsC8a

/-- Loop signal of the concrete approved gate step. -/
def c8Next : Option String := (c8Step.2.toOption).getD (some "x")

/-- Snapshot invariant: a status among `completed`, `canceled` and
`awaiting_input` comes with no current phase. -/
def StInv (st : RunState) : Prop :=
  (st.status = "completed" ∨ st.status = "canceled" ∨ st.status = "awaiting_input") →
    st.current_phase = none

/-- Run-context invariant: the in-memory state and every persisted snapshot
satisfy the snapshot invariant. -/
def LsInv (ls : LoopState) : Prop :=
  StInv ls.state ∧ ∀ s ∈ ls.persisted, StInv s

/-- Environment whose provider lookup always fails. -/
def envC5 : OrchestratorEnv := { envStub with providerResolves := fun _ => false }

/-- Fallback snapshot for projections out of an empty persisted list. -/
def c5Default : RunState :=
  { status := "", current_phase := none, phases := [], retries := 0, startedAt := "",
    updatedAt := "", artifacts := [] }

/-- The last snapshot persisted by the concrete rejected-approval run. -/
def c5Snap : RunState :=
  ((orchestratorRun envC8 {} wfC8 { request := "r", defaultProviderId := some "p" }
      10).1.persisted.getLast?).getD c5Default

end Spec2Proof

deriving instance DecidableEq for Except

namespace Spec2Proof

/-! ## Theorems -/

theorem assertSafePathSegment_cases (r : String) :
    assertSafePathSegment r =
      if unsafePathCandidate r then .error .path_violation else .ok () := by
  simp only [assertSafePathSegment, unsafePathCandidate]
  by_cases h1 : List.map (fun c => if c = '\\' then '/' else c) (unquotePatchPath r).data = []
  · simp [h1]
  · by_cases h2 : absoluteLikePath
        (List.map (fun c => if c = '\\' then '/' else c) (unquotePatchPath r).data) = true
    · simp [h1, h2]
    · by_cases h3 : ['.', '.'] ∈ splitOnChar '/'
          (List.map (fun c => if c = '\\' then '/' else c) (unquotePatchPath r).data)
      · simp [h1, h2, h3]
      · simp [h1, h2, h3]

theorem assertSafePathSegment_error (r : String) (e : PatchExtractionReason)
    (h : assertSafePathSegment r = .error e) : e = .path_violation := by
  rw [assertSafePathSegment_cases] at h
  split at h
  · injection h with h; exact h.symm
  · exact Except.noConfusion h

theorem assertSafePathSegment_rejects (r : String) (h : unsafePathCandidate r = true) :
    assertSafePathSegment r = .error .path_violation := by
  rw [assertSafePathSegment_cases, if_pos h]

theorem assertSafePathSegment_safe (r : String) (h : unsafePathCandidate r = false) :
    assertSafePathSegment r = .ok () := by
  rw [assertSafePathSegment_cases, if_neg]
  simp [h]

theorem safePatchPathsLine_error (line : String) (e : PatchExtractionReason)
    (h : safePatchPathsLine line = .error e) : e = .path_violation := by
  simp only [safePatchPathsLine] at h
  split at h
  · exact Except.noConfusion h
  · split at h
    · cases hm : matchDiffGitHeader line with
      | none => rw [hm] at h; exact Except.noConfusion h
      | some pq =>
        obtain ⟨p1, p2⟩ := pq
        rw [hm] at h
        dsimp only at h
        cases h1 : assertSafePathSegment p1 with
        | error e1 =>
          rw [h1] at h
          dsimp only at h
          injection h with h
          exact h ▸ assertSafePathSegment_error p1 e1 h1
        | ok u =>
          rw [h1] at h
          dsimp only at h
          exact assertSafePathSegment_error p2 e h
    · split at h
      · split at h
        · exact Except.noConfusion h
        · exact assertSafePathSegment_error _ e h
      · exact Except.noConfusion h

theorem safePatchPathsLine_rejects (line : String)
    (h : unsafeDiffGitHeaderLine line = true) :
    safePatchPathsLine line = .error .path_violation := by
  unfold unsafeDiffGitHeaderLine at h
  rw [Bool.and_eq_true] at h
  obtain ⟨h1, h2⟩ := h
  have hne : ¬(line = "") := by
    intro he
    rw [he] at h1
    exact absurd h1 (by decide)
  simp only [safePatchPathsLine, if_neg hne, h1, if_pos]
  match hm : matchDiffGitHeader line with
  | none => rw [hm] at h2; simp at h2
  | some pq =>
    obtain ⟨p1, p2⟩ := pq
    rw [hm] at h2
    dsimp only
    rw [Bool.or_eq_true] at h2
    rcases h2 with h2 | h2
    · rw [assertSafePathSegment_rejects p1 h2]
    · cases hu : unsafePathCandidate p1 with
      | true => rw [assertSafePathSegment_rejects p1 hu]
      | false => rw [assertSafePathSegment_safe p1 hu, assertSafePathSegment_rejects p2 h2]

theorem safePatchPathsLines_rejects (lines : List String) (l : String)
    (hmem : l ∈ lines) (hviol : unsafeDiffGitHeaderLine l = true) :
    safePatchPathsLines lines = .error .path_violation := by
  induction lines with
  | nil => cases hmem
  | cons head rest ih =>
    unfold safePatchPathsLines
    rcases List.mem_cons.mp hmem with heq | hmem2
    · rw [← heq, safePatchPathsLine_rejects l hviol]
    · match hh : safePatchPathsLine head with
      | .error e => rw [safePatchPathsLine_error head e hh]
      | .ok _ => exact ih hmem2

theorem assertSafePatchPaths_rejects (p : String)
    (h : ∃ l ∈ jsSplitLines p, unsafeDiffGitHeaderLine l = true) :
    assertSafePatchPaths p = .error .path_violation := by
  obtain ⟨l, hmem, hl⟩ := h
  exact safePatchPathsLines_rejects (jsSplitLines p) l hmem hl

theorem applyPatchToWorkspace_rejects (p : String) (git : GitCommandResult)
    (h : ∃ l ∈ jsSplitLines (patchPayload p), unsafeDiffGitHeaderLine l = true) :
    applyPatchToWorkspace p git = .extractionError .path_violation := by
  simp only [applyPatchToWorkspace]
  rw [assertSafePatchPaths_rejects (patchPayload p) h]

/-- C1: patch-path safety.  (1) Whenever any `diff --git` header line of a
patch captures an absolute path, a path with a `..` segment, or a path that
unquotes to the empty string, `assertSafePatchPaths` fails with reason
`path_violation`.  (2) Extracting from a text whose payload contains the
header line `diff --git a/../../etc/passwd b/x` fails with `path_violation`.
(3) `applyPatchToWorkspace` re-checks the same predicate on the literal patch
text and raises `path_violation` for every possible git response, so such a
patch is never handed to the git apply mechanism. -/
theorem c1_patch_path_safety :
    (∀ p : String, (∃ l ∈ jsSplitLines p, unsafeDiffGitHeaderLine l = true) →
        assertSafePatchPaths p = .error .path_violation) ∧
    extractPatchFromText "```diff\ndiff --git a/../../etc/passwd b/x\n```" =
      .error .path_violation ∧
    (∀ (p : String) (git : GitCommandResult),
        (∃ l ∈ jsSplitLines (patchPayload p), unsafeDiffGitHeaderLine l = true) →
        applyPatchToWorkspace p git = .extractionError .path_violation) :=
  ⟨assertSafePatchPaths_rejects, by decide, applyPatchToWorkspace_rejects⟩

/-- C1 witness: the safety theorem applied at a concrete traversal patch and a
concrete (successful) git response. -/
theorem c1_patch_path_safety_witness :
    assertSafePatchPaths "diff --git a/../../etc/passwd b/x" = .error .path_violation ∧
    applyPatchToWorkspace "diff --git a/../../etc/passwd b/x"
      { stdout := "", stderr := "", exitCode := some 0, timedOut := false } =
      .extractionError .path_violation :=
  ⟨c1_patch_path_safety.1 "diff --git a/../../etc/passwd b/x" (by decide),
   c1_patch_path_safety.2.2 "diff --git a/../../etc/passwd b/x"
     { stdout := "", stderr := "", exitCode := some 0, timedOut := false } (by decide)⟩

theorem riskFailReasons_eq_nil (a b : Option CommandExecutionResult) :
    riskFailReasons a b = [] ↔
      (isFailedResultOpt a = false ∧ isFailedResultOpt b = false) := by
  cases a <;> cases b <;> simp [riskFailReasons, isFailedResultOpt] <;>
    split <;> simp_all <;> split <;> simp_all

theorem riskDeletionReasons_eq_nil (l : List String) :
    riskDeletionReasons l = [] ↔ l = [] := by
  simp only [riskDeletionReasons]
  split <;> simp_all [List.length_pos]

theorem riskSecurityReasons_eq_nil (l : List String) :
    riskSecurityReasons l = [] ↔ l = [] := by
  simp only [riskSecurityReasons]
  split <;> simp_all [List.length_pos]

theorem riskFileSizeReasons_eq_nil (c : Nat) (t : Int) :
    riskFileSizeReasons c t = [] ↔ ¬((c : Int) ≥ t) := by
  simp only [riskFileSizeReasons]
  split <;> simp_all

theorem riskLineSizeReasons_eq_nil (l t : Int) :
    riskLineSizeReasons l t = [] ↔ ¬(l ≥ t) := by
  simp only [riskLineSizeReasons]
  split <;> simp_all

/-- C2 counterexample: a failed `git diff --name-status` command alone makes
`requiresApproval` true, with no deletions, no security-sensitive files, and
counts far below both default thresholds — refuting the claimed "if and only
if" over the four listed conditions. -/
theorem c2_failed_diff_forces_approval :
    (evaluateRiskFromDiffOutputs
      { nameStatusOutput := ""
        numstatOutput := ""
        nameStatusResult := some
          { commandId := "git-diff-name-status", command := ["git"], stdout := ""
            stderr := "fatal", exitCode := some 1, durationMs := 1,
            timedOut := false } }).requiresApproval = true ∧
    (evaluateRiskFromDiffOutputs
      { nameStatusOutput := ""
        numstatOutput := ""
        nameStatusResult := some
          { commandId := "git-diff-name-status", command := ["git"], stdout := ""
            stderr := "fatal", exitCode := some 1, durationMs := 1,
            timedOut := false } }).deletedFiles = [] ∧
    (evaluateRiskFromDiffOutputs
      { nameStatusOutput := ""
        numstatOutput := ""
        nameStatusResult := some
          { commandId := "git-diff-name-status", command := ["git"], stdout := ""
            stderr := "fatal", exitCode := some 1, durationMs := 1,
            timedOut := false } }).securitySensitiveFiles = [] ∧
    (evaluateRiskFromDiffOutputs
      { nameStatusOutput := ""
        numstatOutput := ""
        nameStatusResult := some
          { commandId := "git-diff-name-status", command := ["git"], stdout := ""
            stderr := "fatal", exitCode := some 1, durationMs := 1,
            timedOut := false } }).changedFileCount = 0 ∧
    (evaluateRiskFromDiffOutputs
      { nameStatusOutput := ""
        numstatOutput := ""
        nameStatusResult := some
          { commandId := "git-diff-name-status", command := ["git"], stdout := ""
            stderr := "fatal", exitCode := some 1, durationMs := 1,
            timedOut := false } }).totalChangedLines = 0 := by
  refine ⟨?_, ?_, ?_, ?_, ?_⟩ <;> decide

/-- C2 (amended): `requiresApproval` is true iff a diff analysis command
failed, deletions are present, security-sensitive files are touched, the
changed-file count reaches its threshold, or the changed-line total reaches
its threshold; the reasons list is the concatenation of the five groups in
the stable order: command failures, deletion, security, file count, line
count. -/
theorem c2_risk_requires_approval :
    ∀ input : EvaluateRiskInput,
      ((evaluateRiskFromDiffOutputs input).requiresApproval = true ↔
        (isFailedResultOpt input.nameStatusResult = true ∨
         isFailedResultOpt input.numstatResult = true ∨
         (evaluateRiskFromDiffOutputs input).deletedFiles ≠ [] ∨
         (evaluateRiskFromDiffOutputs input).securitySensitiveFiles ≠ [] ∨
         ((evaluateRiskFromDiffOutputs input).changedFileCount : Int) ≥
           input.largeChangeFileThreshold.getD 20 ∨
         (evaluateRiskFromDiffOutputs input).totalChangedLines ≥
           input.largeChangeLineThreshold.getD 500)) ∧
      (evaluateRiskFromDiffOutputs input).reasons =
        riskFailReasons input.nameStatusResult input.numstatResult ++
        riskDeletionReasons (evaluateRiskFromDiffOutputs input).deletedFiles ++
        riskSecurityReasons (evaluateRiskFromDiffOutputs input).securitySensitiveFiles ++
        riskFileSizeReasons (evaluateRiskFromDiffOutputs input).changedFileCount
          (input.largeChangeFileThreshold.getD 20) ++
        riskLineSizeReasons (evaluateRiskFromDiffOutputs input).totalChangedLines
          (input.largeChangeLineThreshold.getD 500) := by
  intro input
  constructor
  · simp only [evaluateRiskFromDiffOutputs, decide_eq_true_eq, gt_iff_lt, List.length_pos,
      ne_eq, List.append_eq_nil, riskFailReasons_eq_nil, riskDeletionReasons_eq_nil,
      riskSecurityReasons_eq_nil, riskFileSizeReasons_eq_nil, riskLineSizeReasons_eq_nil]
    cases hns : isFailedResultOpt input.nameStatusResult <;>
      cases hnum : isFailedResultOpt input.numstatResult <;>
      simp only [hns, hnum, Bool.false_eq_true, false_or, or_false, eq_self_iff_true, true_and,
        and_true, and_self, not_false_iff, not_true, iff_true, true_or] <;>
      tauto
  · rfl

/-- C2 witness: the characterization applied at the concrete inputs of the
gatekeeper unit-test fixture (a deletion, a security path, 712 changed lines). -/
theorem c2_risk_requires_approval_witness :
    (evaluateRiskFromDiffOutputs
      { nameStatusOutput := "D\tlegacy.txt\nM\tauth/service.ts\nM\tsrc/module.ts"
        numstatOutput := "10\t2\tauth/service.ts\n400\t300\tsrc/module.ts" }).requiresApproval
      = true :=
  (c2_risk_requires_approval
    { nameStatusOutput := "D\tlegacy.txt\nM\tauth/service.ts\nM\tsrc/module.ts"
      numstatOutput := "10\t2\tauth/service.ts\n400\t300\tsrc/module.ts" }).1.mpr
    (by refine Or.inr (Or.inr (Or.inl ?_)); decide)

theorem normalizeRunState_valid (touch : Bool) (fb : Option String) (now : String)
    (st ns : RunState) (h : normalizeRunState touch fb now st = .ok ns) :
    assertValidRunState ns = .ok () := by
  simp only [normalizeRunState] at h
  split at h
  next => exact Except.noConfusion h
  next u hv =>
    cases u
    injection h with h
    rw [← h, hv]

/-- C6: `StateStore.update` is atomic with respect to errors: whenever loading,
the transform, or validation fails, nothing is written and the on-disk
snapshot equals the pre-update snapshot; on success, exactly the
validation-passing result is written. -/
theorem c6_state_update_atomic :
    ∀ (disk : Option RunState) (updater : RunState → Except String RunState)
      (createIfMissing : Bool) (initialState : Option RunState) (now : String),
      (∀ e, (stateStoreUpdate disk updater createIfMissing initialState now).2 = .error e →
        (stateStoreUpdate disk updater createIfMissing initialState now).1 = disk) ∧
      (∀ s, (stateStoreUpdate disk updater createIfMissing initialState now).2 = .ok s →
        (stateStoreUpdate disk updater createIfMissing initialState now).1 = some s ∧
          assertValidRunState s = .ok ()) := by
  intro disk updater c i now
  constructor
  · intro e he
    unfold stateStoreUpdate at he ⊢
    split at he <;> try rfl
    dsimp only at he ⊢
    split at he <;> try rfl
    split at he <;> try rfl
    split at he <;> try rfl
    exact Except.noConfusion he
  · intro s hs
    unfold stateStoreUpdate at hs ⊢
    split at hs <;> try exact Except.noConfusion hs
    dsimp only at hs ⊢
    split at hs <;> try exact Except.noConfusion hs
    split at hs <;> try exact Except.noConfusion hs
    split at hs <;> try exact Except.noConfusion hs
    next ns hn =>
      injection hs with hs
      constructor
      · rw [hs]
      · exact hs ▸ normalizeRunState_valid _ _ _ _ _ hn

/-- C6 witness: a throwing transform leaves the on-disk snapshot untouched,
and a valid transform's result is exactly what lands on disk. -/
theorem c6_state_update_atomic_witness :
    (stateStoreUpdate
      (some { status := "running", current_phase := none, phases := [], retries := 0,
              startedAt := "t0", updatedAt := "t0", artifacts := [] })
      (fun _ => .error "boom") false none "t1").1 =
      some { status := "running", current_phase := none, phases := [], retries := 0,
             startedAt := "t0", updatedAt := "t0", artifacts := [] } ∧
    (stateStoreUpdate
      (some { status := "running", current_phase := none, phases := [], retries := 0,
              startedAt := "t0", updatedAt := "t0", artifacts := [] })
      (fun s => .ok { s with retries := 3 }) false none "t1").1 =
      some { status := "running", current_phase := none, phases := [], retries := 3,
             startedAt := "t0", updatedAt := "t1", artifacts := [] } :=
  ⟨(c6_state_update_atomic
      (some { status := "running", current_phase := none, phases := [], retries := 0,
              startedAt := "t0", updatedAt := "t0", artifacts := [] })
      (fun _ => .error "boom") false none "t1").1 "boom" (by decide),
   ((c6_state_update_atomic
      (some { status := "running", current_phase := none, phases := [], retries := 0,
              startedAt := "t0", updatedAt := "t0", artifacts := [] })
      (fun s => .ok { s with retries := 3 }) false none "t1").2
      { status := "running", current_phase := none, phases := [], retries := 3,
        startedAt := "t0", updatedAt := "t1", artifacts := [] } (by decide)).1⟩

theorem assocSet_lookup {α : Type} (l : List (String × α)) (k : String) (v : α) :
    lookupAssoc (assocSet l k v) k = some v := by
  induction l with
  | nil => simp [assocSet, lookupAssoc]
  | cons kv rest ih =>
    by_cases hk : kv.1 = k
    · simp only [assocSet]
      rw [if_pos hk]
      simp [lookupAssoc]
    · simp only [assocSet]
      rw [if_neg hk]
      simp only [lookupAssoc]
      rw [if_neg hk]
      exact ih

/-- C7 counterexample: `ArtifactStore.write` is not write-once — a second
write to the same (phase, name) pair is accepted and replaces the stored
content (`writeFile` overwrites, and the index keeps one record per path). -/
theorem c7_write_once_counterexample :
    artifactStoreWrite [] [] "p" "n" "one" "t1" =
      .ok ([("p/n", "one")],
        [{ phase := "p", name := "n", relativePath := "p/n", bytes := 3, updatedAt := "t1" }],
        { phase := "p", name := "n", relativePath := "p/n", bytes := 3, updatedAt := "t1" }) ∧
    artifactStoreWrite [("p/n", "one")]
      [{ phase := "p", name := "n", relativePath := "p/n", bytes := 3, updatedAt := "t1" }]
      "p" "n" "two" "t2" =
      .ok ([("p/n", "two")],
        [{ phase := "p", name := "n", relativePath := "p/n", bytes := 3, updatedAt := "t2" }],
        { phase := "p", name := "n", relativePath := "p/n", bytes := 3, updatedAt := "t2" }) ∧
    lookupAssoc [("p/n", "two")] "p/n" ≠ some "one" := by
  refine ⟨?_, ?_, ?_⟩ <;> decide

/-- C7 (amended): artifacts are last-writer-wins per path within a run — after
a successful write, a second write to the same (phase, name) pair succeeds,
resolves to the same relative path, and replaces the stored content. -/
theorem c7_second_write_replaces :
    ∀ (fs : List (String × String)) (idx : List ArtifactRecord)
      (phase name c1 c2 t1 t2 : String)
      (out : List (String × String) × List ArtifactRecord × ArtifactRecord),
      artifactStoreWrite fs idx phase name c1 t1 = .ok out →
      ∃ out2 : List (String × String) × List ArtifactRecord × ArtifactRecord,
        artifactStoreWrite out.1 out.2.1 phase name c2 t2 = .ok out2 ∧
        out2.2.2.relativePath = out.2.2.relativePath ∧
        lookupAssoc out2.1 out.2.2.relativePath = some c2 := by
  intro fs idx phase name c1 c2 t1 t2 out h
  simp only [artifactStoreWrite, bind, Except.bind] at h ⊢
  cases hr : resolveArtifactPath phase name with
  | error e => rw [hr] at h; exact Except.noConfusion h
  | ok triple =>
    obtain ⟨rel, p, n⟩ := triple
    rw [hr] at h
    dsimp only at h
    injection h with h
    refine ⟨_, rfl, ?_, ?_⟩
    · rw [← h]
    · rw [← h]
      exact assocSet_lookup _ rel c2

/-- C7 witness: the replacement theorem applied at a concrete pair of writes. -/
theorem c7_second_write_replaces_witness :
    ∃ out2 : List (String × String) × List ArtifactRecord × ArtifactRecord,
      artifactStoreWrite [("p/n", "one")]
        [{ phase := "p", name := "n", relativePath := "p/n", bytes := 3, updatedAt := "t1" }]
        "p" "n" "two" "t2" = .ok out2 ∧
      out2.2.2.relativePath = "p/n" ∧
      lookupAssoc out2.1 "p/n" = some "two" :=
  c7_second_write_replaces [] [] "p" "n" "one" "two" "t1" "t2"
    ([("p/n", "one")],
      [{ phase := "p", name := "n", relativePath := "p/n", bytes := 3, updatedAt := "t1" }],
      { phase := "p", name := "n", relativePath := "p/n", bytes := 3, updatedAt := "t1" })
    (by decide)

/-! ### C3: gatekeeper check-failure policy -/

/-- A check result is not a failure exactly when it exited 0 and did not
time out. -/
theorem isFailedResult_false_iff (r : CommandExecutionResult) :
    isFailedResult r = false ↔ (r.exitCode = some 0 ∧ r.timedOut = false) := by
  simp only [isFailedResult, Bool.or_eq_false_iff, decide_eq_false_iff_not, ne_eq, not_not]
  tauto

/-- No check failed exactly when every check exited 0 without timeout. -/
theorem allPassed_iff (rs : List CommandExecutionResult) :
    (rs.filter isFailedResult).length = 0 ↔
      ∀ r ∈ rs, r.exitCode = some 0 ∧ r.timedOut = false := by
  rw [List.length_eq_zero, List.filter_eq_nil_iff]
  refine forall_congr' (fun r => forall_congr' (fun hr => ?_))
  rw [Bool.not_eq_true]
  exact isFailedResult_false_iff r

/-- Action of `decideCheckFailure` as a two-way case split. -/
theorem decideCheckFailure_action_eq (rs : List CommandExecutionResult) (rc maxR : Int) :
    (decideCheckFailure rs rc maxR).action =
      (if (rs.filter isFailedResult).length = 0 then GkAction.pass
       else if rc < maxR then GkAction.auto_fix else GkAction.fail) := by
  simp only [decideCheckFailure]
  by_cases h : (rs.filter isFailedResult).length = 0
  · rw [if_pos h, if_pos h]
  · rw [if_neg h, if_neg h]
    by_cases h2 : rc < maxR
    · rw [if_pos (by omega : maxR - rc > 0), if_pos h2]
    · rw [if_neg (by omega : ¬maxR - rc > 0), if_neg h2]

/-- Any run-context projection preserved by the continuation steps is
preserved by a `seqE` sequence up to its head. -/
theorem seqE_fst_pres {α β γ : Type} (P : LoopState → γ) (r : StepRes α)
    (f : α → LoopState → StepRes β) (hf : ∀ a ls, P (f a ls).1 = P ls) :
    P (seqE r f).1 = P r.1 := by
  obtain ⟨ls, x⟩ := r
  cases x with
  | error e => rfl
  | ok a => exact hf a ls

/-- Writing an artifact leaves the in-memory run state untouched. -/
theorem orcWriteArtifact_state (phase name content : String) (ls : LoopState) :
    (orcWriteArtifact phase name content ls).1.state = ls.state := by
  simp only [orcWriteArtifact, orcNow]
  split <;> rfl

/-- Writing the check-result artifacts leaves the in-memory run state
untouched. -/
theorem writeCheckRecords_state (pid : String) (iter : Nat)
    (rs : List CommandExecutionResult) (ls : LoopState) :
    (writeCheckRecords pid iter rs ls).1.state = ls.state := by
  induction rs generalizing ls with
  | nil => rfl
  | cons r rest ih =>
    simp only [writeCheckRecords]
    refine (seqE_fst_pres LoopState.state _ _ ?_).trans (orcWriteArtifact_state _ _ _ ls)
    intro a ls2
    exact (seqE_fst_pres LoopState.state _ _ (fun b ls3 => rfl)).trans (ih ls2)

/-- Persisting only stamps `updatedAt` on the in-memory state. -/
theorem orcPersist_state (ls : LoopState) :
    (orcPersist ls).1.state = { ls.state with updatedAt := natDecimal ls.tick } := by
  simp only [orcPersist, orcNow]
  split <;> rfl

/-- A successful decision tail either incremented `retries` by one with
decision `auto_fix`, or left `retries` unchanged with decision `pass`. -/
theorem gkAfterChecks_retries_ok (crs : List CommandExecutionResult) (maxR : Int)
    (phase : LlmWorkflowPhase) (fix eval : Option String)
    (records checkRecords : List ArtifactRecord) (ls : LoopState) (out : GkOutcome)
    (h : (gkAfterChecks crs maxR phase fix eval records checkRecords ls).2 = Except.ok out) :
    ((gkAfterChecks crs maxR phase fix eval records checkRecords ls).1.state.retries
        = ls.state.retries + 1 ∧
      (decideCheckFailure crs ls.state.retries maxR).action = GkAction.auto_fix) ∨
    ((gkAfterChecks crs maxR phase fix eval records checkRecords ls).1.state.retries
        = ls.state.retries ∧
      (decideCheckFailure crs ls.state.retries maxR).action = GkAction.pass) := by
  simp only [gkAfterChecks] at h ⊢
  split at h
  next hd =>
    rw [hd]
    exact Or.inr ⟨rfl, rfl⟩
  next hd =>
    rw [hd]
    refine Or.inl ⟨?_, rfl⟩
    show (seqE (orcPersist { ls with state := { ls.state with retries := ls.state.retries + 1 } })
        (fun _ ls => (ls, Except.ok
          ({ records := records ++ checkRecords
             cancelRun := false
             nextPhaseId := some (fix.getD phase.id)
             evaluatorFeedback :=
               some (createAutoFixFeedback crs ls.state.retries eval) } : GkOutcome)))).1.state.retries
      = ls.state.retries + 1
    refine (seqE_fst_pres (fun l => l.state.retries) _ _ (fun a lsx => rfl)).trans ?_
    rw [orcPersist_state]
  next hd =>
    exact Except.noConfusion h

/-- The decision tail never changes `retries` except by the single increment of
an `auto_fix` decision. -/
theorem gkAfterChecks_retries_bound (crs : List CommandExecutionResult) (maxR : Int)
    (phase : LlmWorkflowPhase) (fix eval : Option String)
    (records checkRecords : List ArtifactRecord) (ls : LoopState) :
    (gkAfterChecks crs maxR phase fix eval records checkRecords ls).1.state.retries
        = ls.state.retries ∨
    ((gkAfterChecks crs maxR phase fix eval records checkRecords ls).1.state.retries
        = ls.state.retries + 1 ∧
      (decideCheckFailure crs ls.state.retries maxR).action = GkAction.auto_fix) := by
  simp only [gkAfterChecks]
  cases hd : (decideCheckFailure crs ls.state.retries maxR).action with
  | pass => exact Or.inl rfl
  | auto_fix =>
    refine Or.inr ⟨?_, rfl⟩
    show (seqE (orcPersist { ls with state := { ls.state with retries := ls.state.retries + 1 } })
        (fun _ ls => (ls, Except.ok
          ({ records := records ++ checkRecords
             cancelRun := false
             nextPhaseId := some (fix.getD phase.id)
             evaluatorFeedback :=
               some (createAutoFixFeedback crs ls.state.retries eval) } : GkOutcome)))).1.state.retries
      = ls.state.retries + 1
    refine (seqE_fst_pres (fun l => l.state.retries) _ _ (fun a lsx => rfl)).trans ?_
    rw [orcPersist_state]
  | fail => exact Or.inl rfl

/-- A successful gatekeeper verification pass either incremented `retries` by
one with decision `auto_fix`, or left `retries` unchanged with decision
`pass`. -/
theorem gkChecksPart_retries_ok (env : OrchestratorEnv) (ids : List String) (maxR : Int)
    (phase : LlmWorkflowPhase) (iter : Nat) (fix eval : Option String)
    (records : List ArtifactRecord) (ls : LoopState) (out : GkOutcome)
    (h : (gkChecksPart env ids maxR phase iter fix eval records ls).2 = Except.ok out) :
    ((gkChecksPart env ids maxR phase iter fix eval records ls).1.state.retries
        = ls.state.retries + 1 ∧
      (decideCheckFailure (ids.map (env.commandResult iter)) ls.state.retries maxR).action
        = GkAction.auto_fix) ∨
    ((gkChecksPart env ids maxR phase iter fix eval records ls).1.state.retries
        = ls.state.retries ∧
      (decideCheckFailure (ids.map (env.commandResult iter)) ls.state.retries maxR).action
        = GkAction.pass) := by
  simp only [gkChecksPart] at h ⊢
  by_cases h0 : ids.length = 0
  · rw [if_pos h0] at h ⊢
    refine Or.inr ⟨rfl, ?_⟩
    have hnil : ids = [] := List.length_eq_zero.mp h0
    subst hnil
    rw [decideCheckFailure_action_eq]
    rfl
  · rw [if_neg h0] at h ⊢
    cases hw : writeCheckRecords phase.id iter (List.map (env.commandResult iter) ids) ls with
    | mk ls1 ex =>
      have hls1 : ls1.state = ls.state := by
        have hgen := writeCheckRecords_state phase.id iter
          (List.map (env.commandResult iter) ids) ls
        rw [hw] at hgen
        exact hgen
      rw [hw] at h
      cases ex with
      | error e =>
        exact Except.noConfusion h
      | ok checkRecords =>
        have hok := gkAfterChecks_retries_ok (ids.map (env.commandResult iter)) maxR phase
          fix eval records checkRecords ls1 out h
        rw [hls1] at hok
        exact hok

/-- `retries` never changes through gatekeeper verification except by the
single increment of an `auto_fix` decision. -/
theorem gkChecksPart_retries_bound (env : OrchestratorEnv) (ids : List String) (maxR : Int)
    (phase : LlmWorkflowPhase) (iter : Nat) (fix eval : Option String)
    (records : List ArtifactRecord) (ls : LoopState) :
    (gkChecksPart env ids maxR phase iter fix eval records ls).1.state.retries
        = ls.state.retries ∨
    ((gkChecksPart env ids maxR phase iter fix eval records ls).1.state.retries
        = ls.state.retries + 1 ∧
      (decideCheckFailure (ids.map (env.commandResult iter)) ls.state.retries maxR).action
        = GkAction.auto_fix) := by
  simp only [gkChecksPart]
  by_cases h0 : ids.length = 0
  · rw [if_pos h0]
    exact Or.inl rfl
  · rw [if_neg h0]
    cases hw : writeCheckRecords phase.id iter (List.map (env.commandResult iter) ids) ls with
    | mk ls1 ex =>
      have hls1 : ls1.state = ls.state := by
        have hgen := writeCheckRecords_state phase.id iter
          (List.map (env.commandResult iter) ids) ls
        rw [hw] at hgen
        exact hgen
      cases ex with
      | error e =>
        exact Or.inl (congrArg RunState.retries hls1)
      | ok checkRecords =>
        have hb := gkAfterChecks_retries_bound (ids.map (env.commandResult iter)) maxR phase
          fix eval records checkRecords ls1
        rw [hls1] at hb
        exact hb

/-- C3: `decideCheckFailure` passes iff every check exited 0 without timeout;
with a failed check it returns `auto_fix` iff `retryCount < maxAutoFixRetries`
and `fail` iff retries are exhausted; through the gatekeeper verification the
run's `retries` counter is incremented exactly on an `auto_fix` decision and
never otherwise; and with `maxAutoFixRetries = 2` three consecutive failing
rounds decide `auto_fix`, `auto_fix`, `fail` in order. -/
theorem c3_check_failure_policy :
    (∀ (rs : List CommandExecutionResult) (rc maxR : Int),
        ((decideCheckFailure rs rc maxR).action = GkAction.pass ↔
          ∀ r ∈ rs, r.exitCode = some 0 ∧ r.timedOut = false)) ∧
    (∀ (rs : List CommandExecutionResult) (rc maxR : Int),
        (∃ r ∈ rs, isFailedResult r = true) →
        (((decideCheckFailure rs rc maxR).action = GkAction.auto_fix ↔ rc < maxR) ∧
          ((decideCheckFailure rs rc maxR).action = GkAction.fail ↔ maxR ≤ rc))) ∧
    (∀ (env : OrchestratorEnv) (ids : List String) (maxR : Int) (phase : LlmWorkflowPhase)
        (iter : Nat) (fix eval : Option String) (records : List ArtifactRecord)
        (ls : LoopState) (out : GkOutcome),
        (gkChecksPart env ids maxR phase iter fix eval records ls).2 = Except.ok out →
        ((gkChecksPart env ids maxR phase iter fix eval records ls).1.state.retries
            = ls.state.retries + 1 ∧
          (decideCheckFailure (ids.map (env.commandResult iter)) ls.state.retries maxR).action
            = GkAction.auto_fix) ∨
        ((gkChecksPart env ids maxR phase iter fix eval records ls).1.state.retries
            = ls.state.retries ∧
          (decideCheckFailure (ids.map (env.commandResult iter)) ls.state.retries maxR).action
            = GkAction.pass)) ∧
    (∀ (env : OrchestratorEnv) (ids : List String) (maxR : Int) (phase : LlmWorkflowPhase)
        (iter : Nat) (fix eval : Option String) (records : List ArtifactRecord)
        (ls : LoopState),
        (gkChecksPart env ids maxR phase iter fix eval records ls).1.state.retries
            = ls.state.retries ∨
        ((gkChecksPart env ids maxR phase iter fix eval records ls).1.state.retries
            = ls.state.retries + 1 ∧
          (decideCheckFailure (ids.map (env.commandResult iter)) ls.state.retries maxR).action
            = GkAction.auto_fix)) ∧
    ((decideCheckFailure [c3FailingCheck] 0 2).action = GkAction.auto_fix ∧
      (decideCheckFailure [c3FailingCheck] 1 2).action = GkAction.auto_fix ∧
      (decideCheckFailure [c3FailingCheck] 2 2).action = GkAction.fail) := by
  refine ⟨?_, ?_, gkChecksPart_retries_ok, gkChecksPart_retries_bound, by decide, by decide,
    by decide⟩
  · intro rs rc maxR
    rw [decideCheckFailure_action_eq]
    by_cases h : (rs.filter isFailedResult).length = 0
    · rw [if_pos h]
      simp only [eq_self_iff_true, true_iff]
      exact (allPassed_iff rs).mp h
    · rw [if_neg h]
      constructor
      · intro hc
        split at hc <;> exact GkAction.noConfusion hc
      · intro hall
        exact absurd ((allPassed_iff rs).mpr hall) h
  · intro rs rc maxR hex
    have h : ¬(rs.filter isFailedResult).length = 0 := by
      intro h0
      obtain ⟨r, hr, hf⟩ := hex
      have hok := (allPassed_iff rs).mp h0 r hr
      rw [(isFailedResult_false_iff r).mpr hok] at hf
      exact Bool.noConfusion hf
    refine ⟨?_, ?_⟩ <;> rw [decideCheckFailure_action_eq, if_neg h]
    · by_cases h2 : rc < maxR
      · rw [if_pos h2]
        exact ⟨fun _ => h2, fun _ => rfl⟩
      · rw [if_neg h2]
        exact ⟨fun hc => GkAction.noConfusion hc, fun hlt => absurd hlt h2⟩
    · by_cases h2 : rc < maxR
      · rw [if_pos h2]
        exact ⟨fun hc => GkAction.noConfusion hc, fun hle => absurd h2 (by omega)⟩
      · rw [if_neg h2]
        exact ⟨fun _ => by omega, fun _ => rfl⟩

/-- C3 witness: the retry-window iff at retry count 1 of 2, and the
verification-pass characterization at a concrete call. -/
theorem c3_check_failure_policy_witness :
    ((decideCheckFailure [c3FailingCheck] 1 2).action = GkAction.auto_fix ↔ (1 : Int) < 2) ∧
    (((gkChecksPart envStub [] 2 phaseDev 1 none none [] initialLoopState).1.state.retries
        = initialLoopState.state.retries + 1 ∧
      (decideCheckFailure (([] : List String).map (envStub.commandResult 1))
          initialLoopState.state.retries 2).action = GkAction.auto_fix) ∨
     ((gkChecksPart envStub [] 2 phaseDev 1 none none [] initialLoopState).1.state.retries
        = initialLoopState.state.retries ∧
      (decideCheckFailure (([] : List String).map (envStub.commandResult 1))
          initialLoopState.state.retries 2).action = GkAction.pass)) :=
  ⟨(c3_check_failure_policy.2.1 [c3FailingCheck] 1 2 ⟨c3FailingCheck, by decide, by decide⟩).1,
   c3_check_failure_policy.2.2.1 envStub [] 2 phaseDev 1 none none [] initialLoopState
     { records := [], cancelRun := false } rfl⟩

/-! ### C4: decision parsing priority -/

/-- Membership in `splitsOf` is exactly being a decomposition of the list. -/
theorem splitsOf_mem (cs pre suf : List Char) :
    (pre, suf) ∈ splitsOf cs ↔ pre ++ suf = cs := by
  induction cs generalizing pre suf with
  | nil =>
    constructor
    · intro h
      have h := List.mem_singleton.mp h
      injection h with h1 h2
      rw [h1, h2]
      rfl
    · intro h
      rcases List.append_eq_nil.mp h with ⟨h1, h2⟩
      rw [h1, h2]
      exact List.mem_singleton.mpr rfl
  | cons c rest ih =>
    constructor
    · intro h
      rcases List.mem_cons.mp h with h | h
      · injection h with h1 h2
        rw [h1, h2]
        rfl
      · rcases List.mem_map.mp h with ⟨p, hp, he⟩
        injection he with h1 h2
        rw [← h1, ← h2, List.cons_append, (ih p.1 p.2).mp hp]
    · intro h
      cases pre with
      | nil =>
        rw [List.nil_append] at h
        rw [h]
        exact List.mem_cons_self _ _
      | cons p ps =>
        rw [List.cons_append] at h
        injection h with h1 h2
        refine List.mem_cons.mpr (Or.inr (List.mem_map.mpr ⟨(ps, suf), (ih ps suf).mpr h2, ?_⟩))
        rw [h1]

/-- Absence of an explicit `DECISION:` tag means no decomposition point
carries one. -/
theorem findDecisionTag_none_iff (text : String) :
    findDecisionTag text = none ↔
      ∀ pre suf : List Char, pre ++ suf = text.toList → decisionTagAt suf = none := by
  rw [findDecisionTag, List.findSome?_eq_none_iff]
  constructor
  · intro h pre suf hps
    exact h (pre, suf) ((splitsOf_mem _ pre suf).mpr hps)
  · intro h pr hm
    exact h pr.1 pr.2 ((splitsOf_mem _ pr.1 pr.2).mp hm)

/-- `\bWORD\b` matches the text exactly when some decomposition point does. -/
theorem hasBareWordCI_iff (w text : String) :
    hasBareWordCI w text = true ↔
      ∃ pre suf : List Char, pre ++ suf = text.toList ∧
        bareWordAt w.toList pre suf = true := by
  rw [hasBareWordCI, List.any_eq_true]
  constructor
  · rintro ⟨pr, hm, hb⟩
    exact ⟨pr.1, pr.2, (splitsOf_mem _ _ _).mp hm, hb⟩
  · rintro ⟨pre, suf, hps, hb⟩
    exact ⟨(pre, suf), (splitsOf_mem _ _ _).mpr hps, hb⟩

/-- The substring scan succeeds from any start index exactly when the pattern
starts at some decomposition point. -/
theorem firstIndexOfSubAux_isSome_iff (pat cs : List Char) (i : Nat) :
    (firstIndexOfSubAux pat cs i).isSome = true ↔
      ∃ pre suf : List Char, pre ++ suf = cs ∧ startsWithL pat suf = true := by
  induction cs generalizing i with
  | nil =>
    simp only [firstIndexOfSubAux]
    constructor
    · intro h
      split at h
      next hp => exact ⟨[], [], rfl, by rw [hp]; rfl⟩
      next => exact Bool.noConfusion h
    · rintro ⟨pre, suf, hps, hsw⟩
      rcases List.append_eq_nil.mp hps with ⟨h1, h2⟩
      rw [h2] at hsw
      cases pat with
      | nil => rfl
      | cons p ps => exact Bool.noConfusion hsw
  | cons c rest ih =>
    simp only [firstIndexOfSubAux]
    by_cases hsw : startsWithL pat (c :: rest) = true
    · rw [if_pos hsw]
      constructor
      · intro _
        exact ⟨[], c :: rest, rfl, hsw⟩
      · intro _
        rfl
    · rw [if_neg hsw]
      rw [ih (i + 1)]
      constructor
      · rintro ⟨pre, suf, hps, hs⟩
        exact ⟨c :: pre, suf, by rw [List.cons_append, hps], hs⟩
      · rintro ⟨pre, suf, hps, hs⟩
        cases pre with
        | nil =>
          rw [List.nil_append] at hps
          rw [hps] at hs
          exact absurd hs hsw
        | cons p ps =>
          rw [List.cons_append] at hps
          injection hps with h1 h2
          exact ⟨ps, suf, h2, hs⟩

/-- Substring containment as an existential decomposition. -/
theorem containsSub_iff (pat cs : List Char) :
    containsSub pat cs = true ↔
      ∃ pre suf : List Char, pre ++ suf = cs ∧ startsWithL pat suf = true := by
  simp only [containsSub, firstIndexOfSub]
  exact firstIndexOfSubAux_isSome_iff pat cs 0

/-- Case-insensitive containment as an existential decomposition of the
lower-cased text. -/
theorem containsCI_iff (pat text : String) :
    containsCI pat text = true ↔
      ∃ pre suf : List Char, pre ++ suf = (jsToLower text).toList ∧
        startsWithL pat.toList suf = true := by
  simp only [containsCI]
  exact containsSub_iff pat.toList (jsToLower text).toList

/-- C4 counterexample: a bare word `ask` with neither an explicit `DECISION:`
tag nor any bracket marker still routes to `ask`, contradicting the claimed
default to `pass` for marker-free text. -/
theorem c4_bare_word_counterexample :
    parseDecisionFromOutput "Please ask the user." = WorkflowDecision.ask ∧
    findDecisionTag "Please ask the user." = none ∧
    containsCI "[ask]" "Please ask the user." = false ∧
    containsCI "[fix]" "Please ask the user." = false ∧
    containsCI "[fail]" "Please ask the user." = false := by
  refine ⟨?_, ?_, ?_, ?_, ?_⟩ <;> decide

/-- C4 (amended): the decision priority is explicit tag, then the ask signals
`[ASK]` or bare-word `ASK`, then the fix signals `[FIX]`, `[FAIL]` or
bare-word `FIX`, and `pass` only when no signal at all is present (all tests
case-insensitive). -/
theorem c4_decision_priority :
    (∀ (text : String) (d : WorkflowDecision),
        findDecisionTag text = some d → parseDecisionFromOutput text = d) ∧
    (∀ text : String,
        (∀ pre suf : List Char, pre ++ suf = text.toList → decisionTagAt suf = none) →
        ((∃ pre suf : List Char, pre ++ suf = (jsToLower text).toList ∧
            startsWithL "[ask]".toList suf = true) ∨
          (∃ pre suf : List Char, pre ++ suf = text.toList ∧
            bareWordAt "ask".toList pre suf = true)) →
        parseDecisionFromOutput text = WorkflowDecision.ask) ∧
    (∀ text : String,
        (∀ pre suf : List Char, pre ++ suf = text.toList → decisionTagAt suf = none) →
        ¬((∃ pre suf : List Char, pre ++ suf = (jsToLower text).toList ∧
            startsWithL "[ask]".toList suf = true) ∨
          (∃ pre suf : List Char, pre ++ suf = text.toList ∧
            bareWordAt "ask".toList pre suf = true)) →
        ((∃ pre suf : List Char, pre ++ suf = (jsToLower text).toList ∧
            startsWithL "[fix]".toList suf = true) ∨
          (∃ pre suf : List Char, pre ++ suf = (jsToLower text).toList ∧
            startsWithL "[fail]".toList suf = true) ∨
          (∃ pre suf : List Char, pre ++ suf = text.toList ∧
            bareWordAt "fix".toList pre suf = true)) →
        parseDecisionFromOutput text = WorkflowDecision.fix) ∧
    (∀ text : String,
        (∀ pre suf : List Char, pre ++ suf = text.toList → decisionTagAt suf = none) →
        ¬((∃ pre suf : List Char, pre ++ suf = (jsToLower text).toList ∧
            startsWithL "[ask]".toList suf = true) ∨
          (∃ pre suf : List Char, pre ++ suf = text.toList ∧
            bareWordAt "ask".toList pre suf = true)) →
        ¬((∃ pre suf : List Char, pre ++ suf = (jsToLower text).toList ∧
            startsWithL "[fix]".toList suf = true) ∨
          (∃ pre suf : List Char, pre ++ suf = (jsToLower text).toList ∧
            startsWithL "[fail]".toList suf = true) ∨
          (∃ pre suf : List Char, pre ++ suf = text.toList ∧
            bareWordAt "fix".toList pre suf = true)) →
        parseDecisionFromOutput text = WorkflowDecision.pass) ∧
    (parseDecisionFromOutput "DECISION: FIX" = WorkflowDecision.fix ∧
      parseDecisionFromOutput "[ASK]" = WorkflowDecision.ask ∧
      parseDecisionFromOutput "finish the task" = WorkflowDecision.pass) := by
  refine ⟨?_, ?_, ?_, ?_, by decide, by decide, by decide⟩
  · intro text d h
    simp only [parseDecisionFromOutput]
    rw [h]
  · intro text htag hsig
    have htag' : findDecisionTag text = none := (findDecisionTag_none_iff text).mpr htag
    have hsig' : (containsCI "[ask]" text || hasBareWordCI "ask" text) = true := by
      rw [Bool.or_eq_true]
      rcases hsig with h | h
      · exact Or.inl ((containsCI_iff _ _).mpr h)
      · exact Or.inr ((hasBareWordCI_iff _ _).mpr h)
    simp only [parseDecisionFromOutput]
    rw [htag', hsig']
    rfl
  · intro text htag hnask hfix
    have htag' : findDecisionTag text = none := (findDecisionTag_none_iff text).mpr htag
    have hna : (containsCI "[ask]" text || hasBareWordCI "ask" text) = false := by
      rw [Bool.or_eq_false_iff]
      constructor
      · cases hc : containsCI "[ask]" text
        · rfl
        · exact absurd (Or.inl ((containsCI_iff _ _).mp hc)) hnask
      · cases hb : hasBareWordCI "ask" text
        · rfl
        · exact absurd (Or.inr ((hasBareWordCI_iff _ _).mp hb)) hnask
    have hf : (containsCI "[fix]" text || containsCI "[fail]" text ||
        hasBareWordCI "fix" text) = true := by
      simp only [Bool.or_eq_true]
      rcases hfix with h | h | h
      · exact Or.inl (Or.inl ((containsCI_iff _ _).mpr h))
      · exact Or.inl (Or.inr ((containsCI_iff _ _).mpr h))
      · exact Or.inr ((hasBareWordCI_iff _ _).mpr h)
    simp only [parseDecisionFromOutput]
    rw [htag', hna, hf]
    rfl
  · intro text htag hnask hnfix
    have htag' : findDecisionTag text = none := (findDecisionTag_none_iff text).mpr htag
    have hna : (containsCI "[ask]" text || hasBareWordCI "ask" text) = false := by
      rw [Bool.or_eq_false_iff]
      constructor
      · cases hc : containsCI "[ask]" text
        · rfl
        · exact absurd (Or.inl ((containsCI_iff _ _).mp hc)) hnask
      · cases hb : hasBareWordCI "ask" text
        · rfl
        · exact absurd (Or.inr ((hasBareWordCI_iff _ _).mp hb)) hnask
    have hnf : (containsCI "[fix]" text || containsCI "[fail]" text ||
        hasBareWordCI "fix" text) = false := by
      simp only [Bool.or_eq_false_iff]
      refine ⟨⟨?_, ?_⟩, ?_⟩
      · cases hc : containsCI "[fix]" text
        · rfl
        · exact absurd (Or.inl ((containsCI_iff _ _).mp hc)) hnfix
      · cases hc : containsCI "[fail]" text
        · rfl
        · exact absurd (Or.inr (Or.inl ((containsCI_iff _ _).mp hc))) hnfix
      · cases hb : hasBareWordCI "fix" text
        · rfl
        · exact absurd (Or.inr (Or.inr ((hasBareWordCI_iff _ _).mp hb))) hnfix
    simp only [parseDecisionFromOutput]
    rw [htag', hna, hnf]
    rfl

/-- C4 witness: the explicit-tag rule and the ask-signal rule applied at
concrete outputs. -/
theorem c4_decision_priority_witness :
    parseDecisionFromOutput "DECISION: ASK" = WorkflowDecision.ask ∧
    parseDecisionFromOutput "Please ask the user." = WorkflowDecision.ask :=
  ⟨c4_decision_priority.1 "DECISION: ASK" WorkflowDecision.ask (by decide),
   c4_decision_priority.2.1 "Please ask the user."
     ((findDecisionTag_none_iff "Please ask the user.").mp (by decide))
     (Or.inr ((hasBareWordCI_iff "ask" "Please ask the user.").mp (by decide)))⟩

/-! ### C10: workflow parser defaults -/

/-- A falsy (absent or empty) first operand makes JS `||` yield its second. -/
theorem jsOrString_falsy (a b : Option String) (h : isFalsyOpt a = true) :
    jsOrString a b = b := by
  cases a with
  | none => rfl
  | some s =>
    have hs : s = "" := by
      simp only [isFalsyOpt, Option.getD, decide_eq_true_eq] at h
      exact h
    simp only [jsOrString]
    rw [if_neg (fun hc => hc hs)]

/-- A missing `max_steps` key resolves to the default 20. -/
theorem resolveMaxSteps_none (top : List (String × String))
    (hms : lookupAssoc top "max_steps" = none) : resolveMaxSteps top = .ok 20 := by
  simp only [resolveMaxSteps, hms]

/-- An invalid present `max_steps` raw value makes resolution raise. -/
theorem resolveMaxSteps_bad (top : List (String × String)) (v : String)
    (hms : lookupAssoc top "max_steps" = some v) (hne : v ≠ "")
    (hbad : jsParseInt (jsTrim v) = none ∨ ∃ n, jsParseInt (jsTrim v) = some n ∧ n ≤ 0) :
    ∃ e, resolveMaxSteps top = .error e := by
  simp only [resolveMaxSteps, hms]
  rw [if_pos hne]
  simp only [parsePositiveInteger]
  split
  next hb2 => exact ⟨_, rfl⟩
  next n2 hb2 =>
    rcases hbad with hb | ⟨n, hb, hle⟩
    · rw [hb] at hb2
      exact Option.noConfusion hb2
    · rw [hb] at hb2
      injection hb2 with hb2
      rw [if_pos (hb2 ▸ hle)]
      exact ⟨_, rfl⟩

/-- A missing `max_steps` key leaves the built workflow at the default 20. -/
theorem buildWorkflowDefinition_maxSteps_default (top : List (String × String))
    (entries : List (List (String × String))) (d : WorkflowDefinition)
    (hms : lookupAssoc top "max_steps" = none)
    (h : buildWorkflowDefinition top entries = .ok d) :
    d.maxSteps = 20 := by
  simp only [buildWorkflowDefinition, resolveMaxSteps_none top hms] at h
  repeat (split at h <;> try exact Except.noConfusion h)
  injection h with h
  rw [← h]

/-- A falsy `entry_phase` makes the built workflow enter at the first phase. -/
theorem buildWorkflowDefinition_entry_default (top : List (String × String))
    (entries : List (List (String × String))) (d : WorkflowDefinition)
    (hep : isFalsyOpt ((lookupAssoc top "entry_phase").map jsTrim) = true)
    (h : buildWorkflowDefinition top entries = .ok d) :
    d.phases.head?.map wfPhaseId = some d.entryPhase := by
  simp only [buildWorkflowDefinition] at h
  split at h <;> try exact Except.noConfusion h
  split at h <;> try exact Except.noConfusion h
  split at h <;> try exact Except.noConfusion h
  split at h <;> try exact Except.noConfusion h
  split at h <;> try exact Except.noConfusion h
  rename_i ep hjs
  rw [jsOrString_falsy _ _ hep] at hjs
  repeat (split at h <;> try exact Except.noConfusion h)
  injection h with h
  rw [← h]
  exact hjs

/-- An invalid present `max_steps` always makes construction raise. -/
theorem buildWorkflowDefinition_bad_max_steps (top : List (String × String))
    (entries : List (List (String × String))) (v : String)
    (hms : lookupAssoc top "max_steps" = some v) (hne : v ≠ "")
    (hbad : jsParseInt (jsTrim v) = none ∨ ∃ n, jsParseInt (jsTrim v) = some n ∧ n ≤ 0) :
    ∃ e, buildWorkflowDefinition top entries = .error e := by
  obtain ⟨e0, he0⟩ := resolveMaxSteps_bad top v hms hne hbad
  simp only [buildWorkflowDefinition, he0]
  repeat
    (first
      | exact ⟨_, rfl⟩
      | (rename_i heq; exact Except.noConfusion heq)
      | split)

/-- C10 counterexample: a fractional `max_steps` does not raise —
`Number.parseInt` truncates `"3.5"` to 3 and the workflow is accepted with
`maxSteps = 3`, refuting that a non-integer `max_steps` raises. -/
theorem c10_fractional_max_steps_counterexample :
    jsParseInt (jsTrim "3.5") = some 3 ∧
    parseWorkflowYaml c10YamlFractional =
      .ok { name := "demo", entryPhase := "plan", maxSteps := 3,
            phases := [.llm { id := "plan", role := "planner", promptTemplate := "p" }] } := by
  refine ⟨?_, ?_⟩ <;> decide

/-- C10 (amended): omitting `max_steps` defaults it to 20 and omitting (or
blanking) `entry_phase` defaults it to the first listed phase id, neither
being a parse error; a present non-empty `max_steps` whose `parseInt` value is
absent or non-positive raises, but fractional values are truncated by
`parseInt` and accepted. -/
theorem c10_parser_defaults :
    (∀ (y : String) (sc : WorkflowScan) (d : WorkflowDefinition),
        scanWorkflowLines y = .ok sc →
        lookupAssoc sc.topLevel "max_steps" = none →
        parseWorkflowYaml y = .ok d → d.maxSteps = 20) ∧
    (∀ (y : String) (sc : WorkflowScan) (d : WorkflowDefinition),
        scanWorkflowLines y = .ok sc →
        isFalsyOpt ((lookupAssoc sc.topLevel "entry_phase").map jsTrim) = true →
        parseWorkflowYaml y = .ok d →
        d.phases.head?.map wfPhaseId = some d.entryPhase) ∧
    (∀ (y : String) (sc : WorkflowScan) (v : String),
        scanWorkflowLines y = .ok sc →
        lookupAssoc sc.topLevel "max_steps" = some v → v ≠ "" →
        (jsParseInt (jsTrim v) = none ∨ ∃ n, jsParseInt (jsTrim v) = some n ∧ n ≤ 0) →
        ∃ e, parseWorkflowYaml y = .error e) ∧
    (parseWorkflowYaml c10YamlNoDefaults =
      .ok { name := "demo", entryPhase := "plan", maxSteps := 20,
            phases := [.llm { id := "plan", role := "planner", promptTemplate := "p" }] }) := by
  refine ⟨?_, ?_, ?_, by decide⟩
  · intro y sc d hscan hms hp
    simp only [parseWorkflowYaml, hscan] at hp
    exact buildWorkflowDefinition_maxSteps_default _ _ _ hms hp
  · intro y sc d hscan hep hp
    simp only [parseWorkflowYaml, hscan] at hp
    exact buildWorkflowDefinition_entry_default _ _ _ hep hp
  · intro y sc v hscan hms hne hbad
    obtain ⟨e, he⟩ :=
      buildWorkflowDefinition_bad_max_steps sc.topLevel sc.phaseEntries v hms hne hbad
    refine ⟨e, ?_⟩
    simp only [parseWorkflowYaml, hscan]
    exact he

/-- C10 witness: the defaults rule and the non-positive rejection applied at
concrete workflow texts. -/
theorem c10_parser_defaults_witness :
    ({ name := "demo", entryPhase := "plan", maxSteps := 20,
       phases := [WorkflowPhase.llm { id := "plan", role := "planner", promptTemplate := "p" }] }
        : WorkflowDefinition).maxSteps = 20 ∧
    ∃ e, parseWorkflowYaml c10YamlZero = .error e :=
  ⟨c10_parser_defaults.1 c10YamlNoDefaults
      { topLevel := [("name", "demo")],
        phaseEntries := [[("id", "plan"), ("role", "planner"), ("prompt_template", "p")]],
        inPhases := true, hasCurrent := true }
      { name := "demo", entryPhase := "plan", maxSteps := 20,
        phases := [WorkflowPhase.llm { id := "plan", role := "planner", promptTemplate := "p" }] }
      (by decide) (by decide) (by decide),
   c10_parser_defaults.2.2.1 c10YamlZero
      { topLevel := [("name", "demo"), ("max_steps", "0")],
        phaseEntries := [[("id", "plan"), ("role", "planner"), ("prompt_template", "p")]],
        inPhases := true, hasCurrent := true }
      "0" (by decide) (by decide) (by decide) (Or.inr ⟨0, by decide, by decide⟩)⟩

/-! ### C9: auto-fix fallback without a fixer phase -/

/-- A successful `seqE` outcome is produced by the continuation. -/
theorem seqE_ok_out {α β : Type} (r : StepRes α) (f : α → LoopState → StepRes β) (out : β)
    (h : (seqE r f).2 = Except.ok out) : ∃ a ls, (f a ls).2 = Except.ok out := by
  obtain ⟨ls, x⟩ := r
  cases x with
  | error e => exact Except.noConfusion h
  | ok a => exact ⟨a, ls, h⟩

/-- When the decision tail reports evaluator feedback, the next phase is the
fixer phase, falling back to the phase that just ran. -/
theorem gkAfterChecks_next_on_feedback (crs : List CommandExecutionResult) (maxR : Int)
    (phase : LlmWorkflowPhase) (fix eval : Option String)
    (records checkRecords : List ArtifactRecord) (ls : LoopState) (out : GkOutcome)
    (h : (gkAfterChecks crs maxR phase fix eval records checkRecords ls).2 = Except.ok out)
    (hfb : out.evaluatorFeedback.isSome = true) :
    out.nextPhaseId = some (fix.getD phase.id) := by
  simp only [gkAfterChecks] at h
  split at h
  next hd =>
    injection h with h
    rw [← h] at hfb
    exact Bool.noConfusion hfb
  next hd =>
    obtain ⟨a, ls2, h2⟩ := seqE_ok_out _ _ _ h
    injection h2 with h2
    rw [← h2]
  next hd =>
    exact Except.noConfusion h

/-- Feedback-bearing outcomes of the verification part redirect to the fixer
phase, falling back to the current phase. -/
theorem gkChecksPart_next_on_feedback (env : OrchestratorEnv) (ids : List String)
    (maxR : Int) (phase : LlmWorkflowPhase) (iter : Nat) (fix eval : Option String)
    (records : List ArtifactRecord) (ls : LoopState) (out : GkOutcome)
    (h : (gkChecksPart env ids maxR phase iter fix eval records ls).2 = Except.ok out)
    (hfb : out.evaluatorFeedback.isSome = true) :
    out.nextPhaseId = some (fix.getD phase.id) := by
  simp only [gkChecksPart] at h
  by_cases h0 : ids.length = 0
  · rw [if_pos h0] at h
    injection h with h
    rw [← h] at hfb
    exact Bool.noConfusion hfb
  · rw [if_neg h0] at h
    obtain ⟨cr, ls1, h2⟩ := seqE_ok_out _ _ _ h
    exact gkAfterChecks_next_on_feedback _ _ _ _ _ _ _ _ _ h2 hfb

/-- Feedback-bearing outcomes of the whole gatekeeper stage redirect to the
fixer phase, falling back to the current phase. -/
theorem handleGatekeeperAfterPatch_next_on_feedback (env : OrchestratorEnv)
    (gk : GatekeeperConfig) (ids : List String) (maxR : Int) (phase : LlmWorkflowPhase)
    (iter : Nat) (fix eval : Option String) (ls : LoopState) (out : GkOutcome)
    (h : (handleGatekeeperAfterPatch env gk ids maxR phase iter fix eval ls).2
      = Except.ok out)
    (hfb : out.evaluatorFeedback.isSome = true) :
    out.nextPhaseId = some (fix.getD phase.id) := by
  simp only [handleGatekeeperAfterPatch] at h
  obtain ⟨rr, ls1, h1⟩ := seqE_ok_out _ _ _ h
  split at h1
  · obtain ⟨u, ls2, h2⟩ := seqE_ok_out _ _ _ h1
    obtain ⟨ar, ls3, h3⟩ := seqE_ok_out _ _ _ h2
    split at h3
    · injection h3 with h3
      rw [← h3] at hfb
      exact Bool.noConfusion hfb
    · obtain ⟨u2, ls4, h4⟩ := seqE_ok_out _ _ _ h3
      exact gkChecksPart_next_on_feedback _ _ _ _ _ _ _ _ _ _ h4 hfb
  · exact gkChecksPart_next_on_feedback _ _ _ _ _ _ _ _ _ _ h1 hfb

/-- A workflow with no llm phase of the given (normalized) role has no phase
id for that role. -/
theorem findPhaseIdByRole_none (phases : List WorkflowPhase) (role : String)
    (h : ∀ lp : LlmWorkflowPhase, WorkflowPhase.llm lp ∈ phases →
      jsToLower (jsTrim lp.role) ≠ role) :
    findPhaseIdByRole phases role = none := by
  induction phases with
  | nil => rfl
  | cons p rest ih =>
    cases p with
    | approval a =>
      simp only [findPhaseIdByRole]
      exact ih (fun lp hm => h lp (List.mem_cons_of_mem _ hm))
    | llm lp =>
      simp only [findPhaseIdByRole]
      rw [if_neg (h lp (List.mem_cons_self _ _))]
      exact ih (fun lp2 hm => h lp2 (List.mem_cons_of_mem _ hm))

/-- C9: with no llm phase of role `fixer` the orchestrator's fixer lookup is
`none`, and a feedback-producing (auto-fix) gatekeeper outcome then redirects
the next phase to the phase that just ran; concretely, the single developer
phase of a fixer-less workflow re-executes under failing checks until the
retry budget is exhausted. -/
theorem c9_fixer_fallback :
    (∀ (phases : List WorkflowPhase) (role : String),
        (∀ lp : LlmWorkflowPhase, WorkflowPhase.llm lp ∈ phases →
          jsToLower (jsTrim lp.role) ≠ role) →
        findPhaseIdByRole phases role = none) ∧
    (∀ (env : OrchestratorEnv) (gk : GatekeeperConfig) (ids : List String) (maxR : Int)
        (phase : LlmWorkflowPhase) (iter : Nat) (eval : Option String) (ls : LoopState)
        (out : GkOutcome),
        (handleGatekeeperAfterPatch env gk ids maxR phase iter none eval ls).2
          = Except.ok out →
        out.evaluatorFeedback.isSome = true →
        out.nextPhaseId = some phase.id) ∧
    (findPhaseIdByRole wfC9.phases "fixer" = none ∧
      (orchestratorRun envC9
          { gatekeeper := some {}, checkCommandIds := ["test"], maxAutoFixRetries := 2 }
          wfC9 { request := "r", defaultProviderId := some "p" } 10).2.map
          (fun r => (r.executedPhases, r.state.status, r.state.retries)) =
        .ok (["dev", "dev"], "failed", 2)) := by
  refine ⟨findPhaseIdByRole_none, ?_, by decide, by decide⟩
  intro env gk ids maxR phase iter eval ls out h hfb
  exact handleGatekeeperAfterPatch_next_on_feedback env gk ids maxR phase iter none eval ls
    out h hfb

/-- C9 witness: the fallback redirect applied at the concrete gatekeeper call
of the fixer-less scenario. -/
theorem c9_fixer_fallback_witness : c9Out.nextPhaseId = some "dev" :=
  c9_fixer_fallback.2.1 envC9 {} ["test"] 2 phaseDev 1 none lsC9 c9Out (by decide) (by decide)

/-! ### C8: approval phase routing -/

/-- A `seqE` that produced a pair with a success decomposes into a successful
head and the continuation run on its context. -/
theorem seqE_eq_ok {α β : Type} (r : StepRes α) (f : α → LoopState → StepRes β)
    (ls2 : LoopState) (out : β) (h : seqE r f = (ls2, Except.ok out)) :
    ∃ a ls1, r = (ls1, Except.ok a) ∧ f a ls1 = (ls2, Except.ok out) := by
  obtain ⟨ls, x⟩ := r
  cases x with
  | error e =>
    injection h with h1 h2
    exact Except.noConfusion h2
  | ok a => exact ⟨a, ls, rfl, h⟩

/-- Writing an artifact leaves the executed-phase list untouched. -/
theorem orcWriteArtifact_executed (phase name content : String) (ls : LoopState) :
    (orcWriteArtifact phase name content ls).1.executed = ls.executed := by
  simp only [orcWriteArtifact, orcNow]
  split <;> rfl

/-- Recording an artifact in the run state leaves the executed-phase list
untouched. -/
theorem orcAddArtifactToState_executed (phaseId relativePath : String) (ls : LoopState) :
    (orcAddArtifactToState phaseId relativePath ls).1.executed = ls.executed := by
  simp only [orcAddArtifactToState]
  split <;> rfl

/-- Persisting leaves the executed-phase list untouched. -/
theorem orcPersist_executed (ls : LoopState) :
    (orcPersist ls).1.executed = ls.executed := by
  simp only [orcPersist, orcNow]
  split <;> rfl

/-- Without a current phase the loop performs no further step. -/
theorem runLoop_none (env : OrchestratorEnv) (cfg : OrchestratorConfig)
    (wf : WorkflowDefinition) (input : OrchestratorRunInput) (fix eval : Option String)
    (fuel iter : Nat) (ls : LoopState) :
    runLoop env cfg wf input fix eval fuel none iter ls = (ls, Except.ok none) := by
  cases fuel with
  | zero => rfl
  | succ n => rfl

/-- Approved with no approve-target and no terminal status: the run completes. -/
theorem approvalStep_approved_default (env : OrchestratorEnv) (wf : WorkflowDefinition)
    (request : String) (p : ApprovalWorkflowPhase) (iter : Nat) (ls ls2 : LoopState)
    (next : Option String)
    (happ : env.approve p.id iter = true)
    (hna : isFalsyOpt p.nextOnApprove = true)
    (hts : p.terminalStatus = none)
    (h : approvalStep env wf request p iter ls = (ls2, Except.ok next)) :
    next = none ∧ ls2.state.status = "completed" ∧ ls2.state.current_phase = none := by
  simp only [approvalStep] at h
  obtain ⟨ar, ls1, hw, h⟩ := seqE_eq_ok _ _ _ _ h
  obtain ⟨u, ls1b, hadd, h⟩ := seqE_eq_ok _ _ _ _ h
  simp only [happ, hna, hts, eq_self_iff_true, if_true] at h
  obtain ⟨u2, ls3, hp, h⟩ := seqE_eq_ok _ _ _ _ h
  injection h with hl hr
  injection hr with hr
  have h1 : (orcPersist _).1 = ls3 := congrArg Prod.fst hp
  refine ⟨hr.symm, ?_, ?_⟩
  · rw [← hl, ← h1, orcPersist_state]
    rfl
  · rw [← hl, ← h1, orcPersist_state]
    rfl

/-- Rejected with no reject-target and no terminal status: the run is
canceled and the phase just run is the last executed one. -/
theorem approvalStep_rejected_default (env : OrchestratorEnv) (wf : WorkflowDefinition)
    (request : String) (p : ApprovalWorkflowPhase) (iter : Nat) (ls ls2 : LoopState)
    (next : Option String)
    (happ : env.approve p.id iter = false)
    (hnr : isFalsyOpt p.nextOnReject = true)
    (hts : p.terminalStatus = none)
    (h : approvalStep env wf request p iter ls = (ls2, Except.ok next)) :
    next = none ∧ ls2.state.status = "canceled" ∧ ls2.state.current_phase = none ∧
      ls2.executed = ls.executed ++ [p.id] := by
  simp only [approvalStep] at h
  obtain ⟨ar, ls1, hw, h⟩ := seqE_eq_ok _ _ _ _ h
  obtain ⟨u, ls1b, hadd, h⟩ := seqE_eq_ok _ _ _ _ h
  simp only [happ, hnr, hts, eq_self_iff_true, if_true, Bool.false_eq_true, if_false] at h
  obtain ⟨u2, ls3, hp, h⟩ := seqE_eq_ok _ _ _ _ h
  injection h with hl hr
  injection hr with hr
  have h1 : (orcPersist _).1 = ls3 := congrArg Prod.fst hp
  have e1 : ls1.executed = ls.executed := by
    have h2 : (orcWriteArtifact p.id (formatIteration iter ++ ".approval.txt")
        ("prompt: " ++ renderTemplate p.promptTemplate
          { request := request, workflowName := wf.name, phaseId := p.id, role := none,
            iteration := iter, outputs := ls.outputs, latestOutput := ls.latestOutput } ++
          "\napproved: " ++ if env.approve p.id iter = true then "yes" else "no") ls).1
        = ls1 := congrArg Prod.fst hw
    rw [← h2]
    exact orcWriteArtifact_executed _ _ _ ls
  have e2 : ls1b.executed = ls1.executed := by
    have h2 : (orcAddArtifactToState p.id ar.relativePath (orcPushArtifact ar ls1)).1 = ls1b :=
      congrArg Prod.fst hadd
    rw [← h2]
    exact orcAddArtifactToState_executed _ _ _
  refine ⟨hr.symm, ?_, ?_, ?_⟩
  · rw [← hl, ← h1, orcPersist_state]
    rfl
  · rw [← hl, ← h1, orcPersist_state]
    rfl
  · rw [← hl, ← h1, orcPersist_executed]
    show ls1b.executed ++ [p.id] = ls.executed ++ [p.id]
    rw [e2, e1]

/-- A terminal status on the approval phase short-circuits to that status. -/
theorem approvalStep_terminal (env : OrchestratorEnv) (wf : WorkflowDefinition)
    (request : String) (p : ApprovalWorkflowPhase) (iter : Nat) (ls ls2 : LoopState)
    (next : Option String) (ts : String)
    (hts : p.terminalStatus = some ts)
    (h : approvalStep env wf request p iter ls = (ls2, Except.ok next)) :
    next = none ∧ ls2.state.status = ts ∧ ls2.state.current_phase = none := by
  simp only [approvalStep] at h
  obtain ⟨ar, ls1, hw, h⟩ := seqE_eq_ok _ _ _ _ h
  obtain ⟨u, ls1b, hadd, h⟩ := seqE_eq_ok _ _ _ _ h
  rw [hts] at h
  obtain ⟨u2, ls3, hp, h⟩ := seqE_eq_ok _ _ _ _ h
  injection h with hl hr
  injection hr with hr
  have h1 : (orcPersist _).1 = ls3 := congrArg Prod.fst hp
  refine ⟨hr.symm, ?_, ?_⟩
  · rw [← hl, ← h1, orcPersist_state]
    rfl
  · rw [← hl, ← h1, orcPersist_state]
    rfl

/-- C8: for an approval phase, approval with no approve-target completes the
run; rejection with no reject-target cancels it and nothing executes after the
gate; a terminal status short-circuits to that status regardless of the
decision; a terminated loop signal stops the loop; and the concrete rejection
scenario cancels with only the gate executed. -/
theorem c8_approval_routing :
    (∀ (env : OrchestratorEnv) (wf : WorkflowDefinition) (request : String)
        (p : ApprovalWorkflowPhase) (iter : Nat) (ls ls2 : LoopState) (next : Option String),
        env.approve p.id iter = true →
        isFalsyOpt p.nextOnApprove = true →
        p.terminalStatus = none →
        approvalStep env wf request p iter ls = (ls2, Except.ok next) →
        next = none ∧ ls2.state.status = "completed" ∧ ls2.state.current_phase = none) ∧
    (∀ (env : OrchestratorEnv) (wf : WorkflowDefinition) (request : String)
        (p : ApprovalWorkflowPhase) (iter : Nat) (ls ls2 : LoopState) (next : Option String),
        env.approve p.id iter = false →
        isFalsyOpt p.nextOnReject = true →
        p.terminalStatus = none →
        approvalStep env wf request p iter ls = (ls2, Except.ok next) →
        next = none ∧ ls2.state.status = "canceled" ∧ ls2.state.current_phase = none ∧
          ls2.executed = ls.executed ++ [p.id]) ∧
    (∀ (env : OrchestratorEnv) (wf : WorkflowDefinition) (request : String)
        (p : ApprovalWorkflowPhase) (iter : Nat) (ls ls2 : LoopState) (next : Option String)
        (ts : String),
        p.terminalStatus = some ts →
        approvalStep env wf request p iter ls = (ls2, Except.ok next) →
        next = none ∧ ls2.state.status = ts ∧ ls2.state.current_phase = none) ∧
    (∀ (env : OrchestratorEnv) (cfg : OrchestratorConfig) (wf : WorkflowDefinition)
        (input : OrchestratorRunInput) (fix eval : Option String) (fuel iter : Nat)
        (ls : LoopState),
        runLoop env cfg wf input fix eval fuel none iter ls = (ls, Except.ok none)) ∧
    ((orchestratorRun envC8 {} wfC8 { request := "r", defaultProviderId := some "p" } 10).2.map
        (fun r => (r.executedPhases, r.state.status, r.state.current_phase)) =
      .ok (["gate"], "canceled", none)) :=
  ⟨approvalStep_approved_default, approvalStep_rejected_default,
   fun env wf request p iter ls ls2 next ts hts h =>
     approvalStep_terminal env wf request p iter ls ls2 next ts hts h,
   runLoop_none, by decide⟩

/-- C8 witness: the approved-default rule applied at a concrete gate step. -/
theorem c8_approval_routing_witness :
    c8Next = none ∧ c8Step.1.state.status = "completed" ∧
      c8Step.1.state.current_phase = none :=
  c8_approval_routing.1 envStub wfC8 "r" { id := "gate", promptTemplate := "ok?" } 1 lsC8a
    c8Step.1 c8Next (by decide) (by decide) (by decide) (by decide)

/-! ### C5: terminal snapshots and current_phase -/

/-- The context invariant only depends on status, current phase and the
persisted list. -/
theorem LsInv_mono (ls ls' : LoopState)
    (hst : ls'.state.status = ls.state.status)
    (hcp : ls'.state.current_phase = ls.state.current_phase)
    (hp : ls'.persisted = ls.persisted) (h : LsInv ls) : LsInv ls' := by
  constructor
  · intro htr
    rw [hcp]
    rw [hst] at htr
    exact h.1 htr
  · rw [hp]
    exact h.2

/-- An invariant holding at the head and preserved by the continuation holds
after `seqE`. -/
theorem seqE_inv {α β : Type} (P : LoopState → Prop) (r : StepRes α)
    (f : α → LoopState → StepRes β) (hr : P r.1) (hf : ∀ a ls, P ls → P (f a ls).1) :
    P (seqE r f).1 := by
  obtain ⟨ls, x⟩ := r
  cases x with
  | error e => exact hr
  | ok a => exact hf a ls hr

/-- Normalization preserves the status and the current phase. -/
theorem normalizeRunState_status_current (touch : Bool) (fb : Option String) (now : String)
    (st ns : RunState) (h : normalizeRunState touch fb now st = .ok ns) :
    ns.status = st.status ∧ ns.current_phase = st.current_phase := by
  simp only [normalizeRunState] at h
  split at h
  next => exact Except.noConfusion h
  next u hv =>
    cases u
    injection h with h
    rw [← h]
    exact ⟨rfl, rfl⟩

/-- Persisting preserves the context invariant. -/
theorem LsInv_orcPersist (ls : LoopState) (h : LsInv ls) : LsInv (orcPersist ls).1 := by
  simp only [orcPersist, orcNow]
  split
  next e hn => exact ⟨h.1, h.2⟩
  next ns hn =>
    refine ⟨h.1, ?_⟩
    intro s hs
    rw [List.mem_append] at hs
    rcases hs with hs | hs
    · exact h.2 s hs
    · rw [List.mem_singleton] at hs
      subst hs
      obtain ⟨h1, h2⟩ := normalizeRunState_status_current _ _ _ _ _ hn
      intro htr
      rw [h2]
      rw [h1] at htr
      exact h.1 htr

/-- Artifact writes preserve the context invariant. -/
theorem LsInv_orcWriteArtifact (phase name content : String) (ls : LoopState)
    (h : LsInv ls) : LsInv (orcWriteArtifact phase name content ls).1 := by
  simp only [orcWriteArtifact, orcNow]
  split
  · exact LsInv_mono _ _ rfl rfl rfl h
  · exact LsInv_mono _ _ rfl rfl rfl h

/-- State artifact recording preserves the context invariant. -/
theorem LsInv_orcAddArtifactToState (phaseId relativePath : String) (ls : LoopState)
    (h : LsInv ls) : LsInv (orcAddArtifactToState phaseId relativePath ls).1 := by
  simp only [orcAddArtifactToState]
  split
  · exact LsInv_mono _ _ rfl rfl rfl h
  · exact LsInv_mono _ _ rfl rfl rfl h

/-- Setting any status together with a cleared current phase preserves the
context invariant. -/
theorem LsInv_setStatusCurrent_none (s : String) (ls : LoopState) (h : LsInv ls) :
    LsInv (orcSetStatusCurrent s none ls) := by
  exact ⟨fun _ => rfl, h.2⟩

/-- Setting a non-terminal status preserves the context invariant whatever the
current phase becomes. -/
theorem LsInv_setStatusCurrent_not_terminal (s : String) (c : Option String)
    (ls : LoopState) (h : LsInv ls)
    (hs : ¬(s = "completed" ∨ s = "canceled" ∨ s = "awaiting_input")) :
    LsInv (orcSetStatusCurrent s c ls) := by
  refine ⟨?_, h.2⟩
  intro htr
  exact absurd htr hs

/-- The common persist-and-return tail preserves the context invariant. -/
theorem LsInv_setPersistTail {β : Type} (s : String) (c : Option String) (ls : LoopState)
    (v : LoopState → β) (h : LsInv (orcSetStatusCurrent s c ls)) :
    LsInv (seqE (orcPersist (orcSetStatusCurrent s c ls))
      (fun _ ls2 => (ls2, Except.ok (v ls2)))).1 :=
  seqE_inv _ _ _ (LsInv_orcPersist _ h) (fun _ _ h2 => h2)

/-- Check-record writing preserves the context invariant. -/
theorem LsInv_writeCheckRecords (pid : String) (iter : Nat) :
    ∀ (rs : List CommandExecutionResult) (ls : LoopState), LsInv ls →
      LsInv (writeCheckRecords pid iter rs ls).1 := by
  intro rs
  induction rs with
  | nil => intro ls h; exact h
  | cons r rest ih =>
    intro ls h
    simp only [writeCheckRecords]
    refine seqE_inv _ _ _ (LsInv_orcWriteArtifact _ _ _ _ h) ?_
    intro a ls1 h1
    refine seqE_inv _ _ _ (ih ls1 h1) ?_
    intro b ls2 h2
    exact h2

/-- The gatekeeper decision tail preserves the context invariant. -/
theorem LsInv_gkAfterChecks (crs : List CommandExecutionResult) (maxR : Int)
    (phase : LlmWorkflowPhase) (fix eval : Option String)
    (records checkRecords : List ArtifactRecord) (ls : LoopState) (h : LsInv ls) :
    LsInv (gkAfterChecks crs maxR phase fix eval records checkRecords ls).1 := by
  simp only [gkAfterChecks]
  split
  · exact h
  · refine seqE_inv _ _ _ (LsInv_orcPersist _ (LsInv_mono _ _ rfl rfl rfl h)) ?_
    intro a ls2 h2
    exact h2
  · exact h

/-- The gatekeeper verification part preserves the context invariant. -/
theorem LsInv_gkChecksPart (env : OrchestratorEnv) (ids : List String) (maxR : Int)
    (phase : LlmWorkflowPhase) (iter : Nat) (fix eval : Option String)
    (records : List ArtifactRecord) (ls : LoopState) (h : LsInv ls) :
    LsInv (gkChecksPart env ids maxR phase iter fix eval records ls).1 := by
  simp only [gkChecksPart]
  split
  · exact h
  · refine seqE_inv _ _ _ (LsInv_writeCheckRecords _ _ _ _ h) ?_
    intro cr ls1 h1
    exact LsInv_gkAfterChecks _ _ _ _ _ _ _ _ h1

/-- The whole gatekeeper stage preserves the context invariant. -/
theorem LsInv_handleGatekeeperAfterPatch (env : OrchestratorEnv) (gk : GatekeeperConfig)
    (ids : List String) (maxR : Int) (phase : LlmWorkflowPhase) (iter : Nat)
    (fix eval : Option String) (ls : LoopState) (h : LsInv ls) :
    LsInv (handleGatekeeperAfterPatch env gk ids maxR phase iter fix eval ls).1 := by
  simp only [handleGatekeeperAfterPatch]
  refine seqE_inv _ _ _ (LsInv_orcWriteArtifact _ _ _ _ h) ?_
  intro rr ls1 h1
  split
  · refine seqE_inv _ _ _
      (LsInv_orcPersist _ (LsInv_setStatusCurrent_not_terminal _ _ _ h1 (by decide))) ?_
    intro u ls2 h2
    refine seqE_inv _ _ _ (LsInv_orcWriteArtifact _ _ _ _ h2) ?_
    intro ar ls3 h3
    split
    · exact h3
    · refine seqE_inv _ _ _
        (LsInv_orcPersist _ (LsInv_setStatusCurrent_not_terminal _ _ _ h3 (by decide))) ?_
      intro u2 ls4 h4
      exact LsInv_gkChecksPart _ _ _ _ _ _ _ _ _ h4
  · exact LsInv_gkChecksPart _ _ _ _ _ _ _ _ _ h1

/-- Planner artifact processing preserves the context invariant. -/
theorem LsInv_processPlannerPhaseArtifacts (phase : LlmWorkflowPhase) (iter : Nat)
    (outputText : String) (ls : LoopState) (h : LsInv ls) :
    LsInv (processPlannerPhaseArtifacts phase iter outputText ls).1 := by
  simp only [processPlannerPhaseArtifacts]
  split
  · exact h
  · refine seqE_inv _ _ _ (LsInv_orcWriteArtifact _ _ _ _ h) ?_
    intro r ls1 h1
    exact h1

/-- Patch-first processing preserves the context invariant. -/
theorem LsInv_processPatchFirstPhase (env : OrchestratorEnv) (phase : LlmWorkflowPhase)
    (iter : Nat) (outputText : String) (ls : LoopState) (h : LsInv ls) :
    LsInv (processPatchFirstPhase env phase iter outputText ls).1 := by
  simp only [processPatchFirstPhase]
  split
  · exact h
  · split
    · exact h
    · refine seqE_inv _ _ _ (LsInv_orcWriteArtifact _ _ _ _ h) ?_
      intro pr ls1 h1
      split
      · exact h1
      · exact h1
      · split
        · exact h1
        · refine seqE_inv _ _ _ (LsInv_orcWriteArtifact _ _ _ _ h1) ?_
          intro dr ls2 h2
          refine seqE_inv _ _ _ (LsInv_orcWriteArtifact _ _ _ _ h2) ?_
          intro dr2 ls3 h3
          exact h3

/-- Pushing artifact records preserves the context invariant. -/
theorem LsInv_pushRecordsToState (pid : String) :
    ∀ (rs : List ArtifactRecord) (ls : LoopState), LsInv ls →
      LsInv (pushRecordsToState pid rs ls).1 := by
  intro rs
  induction rs with
  | nil => intro ls h; exact h
  | cons r rest ih =>
    intro ls h
    simp only [pushRecordsToState]
    refine seqE_inv _ _ _ (LsInv_orcAddArtifactToState _ _ _ (LsInv_mono _ _ rfl rfl rfl h)) ?_
    intro u ls1 h1
    exact ih ls1 h1

/-- Gatekeeper feedback application preserves the context invariant. -/
theorem LsInv_applyGkFeedback (outputText : String) (evaluatePhaseId : Option String)
    (gkOutcome : GkOutcome) (ls : LoopState) (h : LsInv ls) :
    LsInv (applyGkFeedback outputText evaluatePhaseId gkOutcome ls).2 := by
  simp only [applyGkFeedback]
  split
  · split
    · split
      · split
        · exact LsInv_mono _ _ rfl rfl rfl (LsInv_mono _ _ rfl rfl rfl h)
        · exact LsInv_mono _ _ rfl rfl rfl h
      · exact LsInv_mono _ _ rfl rfl rfl h
    · exact h
  · exact h

/-- The llm-step tail preserves the context invariant. -/
theorem LsInv_finishLlmStep (phase : LlmWorkflowPhase) (phaseOutputText : String)
    (nextPhaseOverride : Option String) (cancelRequestedByGatekeeper : Bool)
    (ls : LoopState) (h : LsInv ls) :
    LsInv (finishLlmStep phase phaseOutputText nextPhaseOverride
      cancelRequestedByGatekeeper ls).1 := by
  simp only [finishLlmStep]
  split
  · refine seqE_inv _ _ _
      (LsInv_orcPersist _ (LsInv_setStatusCurrent_none _ _ (LsInv_mono _ _ rfl rfl rfl h))) ?_
    intro a ls2 h2
    exact h2
  · split
    · refine seqE_inv _ _ _
        (LsInv_orcPersist _ (LsInv_setStatusCurrent_none _ _ (LsInv_mono _ _ rfl rfl rfl h))) ?_
      intro a ls2 h2
      exact h2
    · split
      · refine seqE_inv _ _ _
          (LsInv_orcPersist _ (LsInv_setStatusCurrent_none _ _ (LsInv_mono _ _ rfl rfl rfl h))) ?_
        intro a ls2 h2
        exact h2
      · refine seqE_inv _ _ _
          (LsInv_orcPersist _ (LsInv_setStatusCurrent_not_terminal _ _ _
            (LsInv_mono _ _ rfl rfl rfl h) (by decide))) ?_
        intro a ls2 h2
        exact h2

/-- The llm branch of the loop preserves the context invariant. -/
theorem LsInv_llmStep (env : OrchestratorEnv) (cfg : OrchestratorConfig)
    (wf : WorkflowDefinition) (input : OrchestratorRunInput) (fix eval : Option String)
    (phase : LlmWorkflowPhase) (iter : Nat) (ls : LoopState) (h : LsInv ls) :
    LsInv (llmStep env cfg wf input fix eval phase iter ls).1 := by
  simp only [llmStep]
  split
  · exact h
  · split
    · exact h
    · split
      · exact h
      · split
        · exact h
        · refine seqE_inv _ _ _ (LsInv_orcWriteArtifact _ _ _ _ h) ?_
          intro rawRecord ls1 h1
          refine seqE_inv _ _ _
            (LsInv_orcAddArtifactToState _ _ _ (LsInv_mono _ _ rfl rfl rfl h1)) ?_
          intro u ls2 h2
          split
          · refine seqE_inv _ _ _ (LsInv_orcWriteArtifact _ _ _ _ h2) ?_
            intro mr ls3 h3
            refine seqE_inv _ _ _
              (LsInv_orcAddArtifactToState _ _ _ (LsInv_mono _ _ rfl rfl rfl h3)) ?_
            intro u2 ls4 h4
            exact LsInv_finishLlmStep _ _ _ _ _ h4
          · refine seqE_inv _ _ _ (LsInv_processPlannerPhaseArtifacts _ _ _ _ h2) ?_
            intro recs ls3 h3
            refine seqE_inv _ _ _ (LsInv_pushRecordsToState _ _ _ h3) ?_
            intro u2 ls4 h4
            refine seqE_inv _ _ _ (LsInv_processPatchFirstPhase _ _ _ _ _ h4) ?_
            intro recs2 ls5 h5
            refine seqE_inv _ _ _ (LsInv_pushRecordsToState _ _ _ h5) ?_
            intro u3 ls6 h6
            split
            · split
              · refine seqE_inv _ _ _ (LsInv_handleGatekeeperAfterPatch _ _ _ _ _ _ _ _ _ h6) ?_
                intro gkOut ls7 h7
                refine seqE_inv _ _ _ (LsInv_pushRecordsToState _ _ _ h7) ?_
                intro u4 ls8 h8
                exact LsInv_finishLlmStep _ _ _ _ _ (LsInv_applyGkFeedback _ _ _ _ h8)
              · exact LsInv_finishLlmStep _ _ _ _ _ h6
            · exact LsInv_finishLlmStep _ _ _ _ _ h6

/-- The approval branch of the loop preserves the context invariant. -/
theorem LsInv_approvalStep (env : OrchestratorEnv) (wf : WorkflowDefinition)
    (request : String) (p : ApprovalWorkflowPhase) (iter : Nat) (ls : LoopState)
    (h : LsInv ls) : LsInv (approvalStep env wf request p iter ls).1 := by
  simp only [approvalStep]
  refine seqE_inv _ _ _ (LsInv_orcWriteArtifact _ _ _ _ h) ?_
  intro ar ls1 h1
  refine seqE_inv _ _ _
    (LsInv_orcAddArtifactToState _ _ _ (LsInv_mono _ _ rfl rfl rfl h1)) ?_
  intro u ls2 h2
  repeat' split
  all_goals
    first
      | exact LsInv_setPersistTail _ _ _ _
          (LsInv_setStatusCurrent_none _ _ (LsInv_mono _ _ rfl rfl rfl h2))
      | exact LsInv_setPersistTail _ _ _ _
          (LsInv_setStatusCurrent_not_terminal _ _ _ (LsInv_mono _ _ rfl rfl rfl h2)
            (by decide))

/-- The phase loop preserves the context invariant. -/
theorem LsInv_runLoop (env : OrchestratorEnv) (cfg : OrchestratorConfig)
    (wf : WorkflowDefinition) (input : OrchestratorRunInput) (fix eval : Option String) :
    ∀ (fuel : Nat) (cur : Option String) (iter : Nat) (ls : LoopState), LsInv ls →
      LsInv (runLoop env cfg wf input fix eval fuel cur iter ls).1 := by
  intro fuel
  induction fuel with
  | zero => intro cur iter ls h; exact h
  | succ n ih =>
    intro cur iter ls h
    cases cur with
    | none => exact h
    | some cpid =>
      simp only [runLoop]
      split
      · refine seqE_inv _ _ _
          (LsInv_orcPersist _ (LsInv_setStatusCurrent_not_terminal _ _ _ h (by decide))) ?_
        intro a ls2 h2
        exact h2
      · split
        · exact h
        · rename_i phase hpm
          split
          · exact h
          · refine seqE_inv _ _ _
              (LsInv_orcPersist _ (LsInv_setStatusCurrent_not_terminal _ _ _
                (LsInv_mono _ _ rfl rfl rfl h) ?_)) ?_
            · cases phase
              · exact (by decide : ¬("running" = "completed" ∨
                  "running" = "canceled" ∨ "running" = "awaiting_input"))
              · exact (by decide : ¬("awaiting_approval" = "completed" ∨
                  "awaiting_approval" = "canceled" ∨ "awaiting_approval" = "awaiting_input"))
            · intro u ls2 h2
              have hstep : LsInv (match phase with
                  | WorkflowPhase.approval p =>
                    approvalStep env wf input.request p (iter + 1) ls2
                  | WorkflowPhase.llm p =>
                    llmStep env cfg wf input fix eval p (iter + 1) ls2).1 := by
                cases phase with
                | approval p => exact LsInv_approvalStep _ _ _ _ _ _ h2
                | llm p => exact LsInv_llmStep _ _ _ _ _ _ _ _ _ h2
              split
              · rename_i ls3 next heq
                rw [heq] at hstep
                exact ih next (iter + 1) ls3 hstep
              · rename_i ls3 e heq
                rw [heq] at hstep
                refine seqE_inv _ _ _
                  (LsInv_orcPersist _ (LsInv_setStatusCurrent_not_terminal _ _ _
                    (LsInv_mono _ _ rfl rfl rfl hstep) (by decide))) ?_
                intro a ls4 h4
                exact h4

/-- A whole orchestrator run preserves the context invariant from the empty
context. -/
theorem LsInv_orchestratorRun (env : OrchestratorEnv) (cfg : OrchestratorConfig)
    (wf : WorkflowDefinition) (input : OrchestratorRunInput) (fuel : Nat) :
    LsInv (orchestratorRun env cfg wf input fuel).1 := by
  simp only [orchestratorRun]
  split
  · refine ⟨?_, ?_⟩
    · intro htr
      rcases htr with h1 | h1 | h1 <;>
        · have h2 : "" = "completed" ∨ "" = "canceled" ∨ "" = "awaiting_input" := by
            first
              | exact Or.inl h1
              | exact Or.inr (Or.inl h1)
              | exact Or.inr (Or.inr h1)
          rcases h2 with h3 | h3 | h3 <;> exact absurd h3 (by decide)
    · intro s hs
      exact absurd hs (List.not_mem_nil s)
  · rename_i st hcr
    have h0 : LsInv { (orcNow initialLoopState).2 with state := st } := by
      constructor
      · simp only [createInitialRunState] at hcr
        obtain ⟨h1, h2⟩ := normalizeRunState_status_current _ _ _ _ _ hcr
        intro htr
        rw [h1] at htr
        have htr2 : "running" = "completed" ∨ "running" = "canceled" ∨
            "running" = "awaiting_input" := htr
        rcases htr2 with h3 | h3 | h3 <;> exact absurd h3 (by decide)
      · intro s hs
        exact absurd hs (List.not_mem_nil s)
    refine seqE_inv _ _ _ (LsInv_orcPersist _ h0) ?_
    intro u ls1 h1
    refine seqE_inv _ _ _ (LsInv_runLoop env cfg wf input _ _ _ _ _ _ h1) ?_
    intro finalCur ls2 h2
    split
    · split
      · refine seqE_inv _ _ _ (LsInv_orcPersist _ (LsInv_setStatusCurrent_none _ _ h2)) ?_
        intro a ls3 h3
        exact h3
      · exact h2
    · exact h2

/-- C5 counterexample: a failure-policy snapshot is persisted with status
`failed` while `current_phase` still holds the failing phase id, so `failed`
snapshots do not clear `current_phase`. -/
theorem c5_failed_snapshot_counterexample :
    ((orchestratorRun envC5 {} wfC9 { request := "r", defaultProviderId := some "p" }
        10).1.persisted.getLast?.map (fun s => (s.status, s.current_phase))) =
      some ("failed", some "dev") := by
  decide

/-- C5 (amended): every snapshot persisted by an orchestrator run whose status
is `completed`, `canceled` or `awaiting_input` has `current_phase = none`;
`failed` is excluded because the failure policy and maxSteps exhaustion
persist `failed` with the failing phase id retained. -/
theorem c5_terminal_current_phase :
    ∀ (env : OrchestratorEnv) (cfg : OrchestratorConfig) (wf : WorkflowDefinition)
      (input : OrchestratorRunInput) (fuel : Nat) (s : RunState),
      s ∈ (orchestratorRun env cfg wf input fuel).1.persisted →
      (s.status = "completed" ∨ s.status = "canceled" ∨ s.status = "awaiting_input") →
      s.current_phase = none := by
  intro env cfg wf input fuel s hs htr
  exact (LsInv_orchestratorRun env cfg wf input fuel).2 s hs htr

/-- C5 witness: the invariant applied to the canceled snapshot of the
rejected-approval run. -/
theorem c5_terminal_current_phase_witness : c5Snap.current_phase = none :=
  c5_terminal_current_phase envC8 {} wfC8 { request := "r", defaultProviderId := some "p" } 10
    c5Snap (by decide) (by decide)

end Spec2Proof
